import Mathlib

/-!
Verification development for the trade-monitoring repository
(`IBApp.py`, `alert_engine.py`): a shallow embedding of the tick
normalizer, server-time oracle, market-session state machine and
alert evaluator/deduplicator, with theorems settling the spec claims.

Python floats are embedded as an inductive `PFloat` (rationals plus
the three non-finite values), so that Python's comparison semantics
(`nan < 0` is false, `inf < 0` is false) are captured exactly where
the source relies on them.  Python dictionaries whose values may be
`None` are embedded as association lists over `Option PFloat`.
-/

namespace Trade

/-- Embedding of a Python float: a rational number or one of the
non-finite values `nan`, `inf`, `-inf`. -/
inductive PFloat where
  | nan : PFloat
  | inf : PFloat
  | ninf : PFloat
  | num (q : ℚ) : PFloat
deriving DecidableEq, Repr

/-- Python `math.isfinite`. -/
def PFloat.isFinite : PFloat → Bool
  | .num _ => true
  | _ => false

/-- Python `x < 0` on a float: false for `nan` and `inf`, true for `-inf`. -/
def PFloat.ltZero : PFloat → Bool
  | .nan => false
  | .inf => false
  | .ninf => true
  | .num q => decide (q < 0)

/-- Python `x > 0` on a float: false for `nan` and `-inf`, true for `inf`. -/
def PFloat.gtZero : PFloat → Bool
  | .nan => false
  | .inf => true
  | .ninf => false
  | .num q => decide (0 < q)

/-- A Python value that may be `None`: `none` embeds Python `None`,
`some v` a float `v`. -/
abbrev PVal := Option PFloat

/-- Python truthiness of a `PVal`: `None` and `0.0` are falsy, every
other float (including `nan` and the infinities) is truthy. -/
def pyTruthy : PVal → Bool
  | none => false
  | some (.num q) => decide (q ≠ 0)
  | some _ => true

/-- A Python dict, embedded as an association list (insertion order
kept, keys unique by construction of the update operation). -/
abbrev Dict (κ β : Type) := List (κ × β)

/-- Dict key lookup: `some v` when the key is present with value `v`. -/
def dget {κ β : Type} [DecidableEq κ] : Dict κ β → κ → Option β
  | [], _ => none
  | (k, v) :: rest, key => if k = key then some v else dget rest key

/-- Dict assignment `d[key] = v`: replace in place if present,
otherwise append. -/
def dset {κ β : Type} [DecidableEq κ] : Dict κ β → κ → β → Dict κ β
  | [], key, v => [(key, v)]
  | (k, w) :: rest, key, v =>
    if k = key then (k, v) :: rest else (k, w) :: dset rest key v

/-- A tick-value dict: string keys, values that may embed `None`. -/
abbrev Store := Dict String PVal

/-- Lookup in a `Store` (the outer `Option` is key presence). -/
abbrev storeGet (s : Store) (key : String) : Option PVal := dget s key

/-- Dict assignment on a `Store`. -/
abbrev storeSet (s : Store) (key : String) (v : PVal) : Store := dset s key v

/-- Python `d.get(key)`: `None` when the key is absent. -/
def pyGet (s : Store) (key : String) : PVal :=
  (storeGet s key).getD none

/-! ## Tick normalizer state (`IBApp.tickers`, `_stream_key_map`, `_stream_data`) -/

structure TickState where
  tickers : Dict Nat Store
  streamKeyMap : Dict Nat String
  streamData : Dict String Store
deriving DecidableEq, Repr

/-- `IBApp.FIELD_MAP`: vendor numeric field code to semantic key. -/
def FIELD_MAP : Nat → Option String
  | 0 => some "bid_size"
  | 1 => some "bid"
  | 2 => some "ask"
  | 3 => some "ask_size"
  | 4 => some "last"
  | 5 => some "last_size"
  | 6 => some "high"
  | 7 => some "low"
  | 8 => some "close"
  | 9 => some "prev_close"
  | 14 => some "open"
  | 27 => some "bid_iv"
  | 28 => some "ask_iv"
  | 31 => some "last_iv"
  | 49 => some "call_oi"
  | 50 => some "put_oi"
  | 55 => some "call_vol"
  | 56 => some "put_vol"
  | 66 => some "bid"
  | 67 => some "ask"
  | 68 => some "last"
  | 69 => some "bid_size"
  | 70 => some "ask_size"
  | 71 => some "last_size"
  | 72 => some "high"
  | 73 => some "low"
  | 74 => some "volume"
  | 75 => some "prev_close"
  | _ => none

/-- `FIELD_MAP.get(field, f"p{field}")`. -/
def fieldKey (field : Nat) : String :=
  (FIELD_MAP field).getD ("p" ++ toString field)

/-- The field codes guarded by the price-validity filter in
`IBApp.tickPrice` (`field in (1,2,4,6,7,9,14,37,66,67,68,72,73,75,76)`). -/
def priceLikeFields : List Nat := [1, 2, 4, 6, 7, 9, 14, 37, 66, 67, 68, 72, 73, 75, 76]

/-- Common tail of the tick handlers: write `key ↦ v` into
`tickers[reqId]` and, when `reqId` is a registered subscription, into
`_stream_data[stream_key_map[reqId]]`. -/
def writeTick (st : TickState) (reqId : Nat) (key : String) (v : PVal) : TickState :=
  let bucket := (dget st.tickers reqId).getD []
  let st1 : TickState :=
    { st with tickers := dset st.tickers reqId (storeSet bucket key v) }
  match dget st.streamKeyMap reqId with
  | none => st1
  | some k =>
    let out := (dget st.streamData k).getD []
    { st1 with streamData := dset st.streamData k (storeSet out key v) }

/-- `IBApp.tickPrice`: for price-like fields, an update whose price is
`None` or compares `< 0` is dropped; otherwise the value is written
under the mapped semantic key into both caches. -/
def tickPrice (st : TickState) (reqId : Nat) (field : Nat) (price : PVal) : TickState :=
  if field ∈ priceLikeFields ∧ (price = none ∨ (price.getD (.num 0)).ltZero = true) then
    st
  else
    writeTick st reqId (fieldKey field) price

/-! ## `IBApp.tickOptionComputation` -/

/-- `_clean` inside `tickOptionComputation`: `-1` and non-finite floats
become `None` (treated as unavailable). -/
def cleanGreek : PVal → PVal
  | none => none
  | some v =>
    match v with
    | .num q => if q = -1 then none else some (.num q)
    | _ => none

/-- The side tag of a greek tick-type code: live 10–13 and delayed
80–83 map to bid/ask/last/model. -/
def sideOf : Nat → Option String
  | 10 => some "bid"
  | 11 => some "ask"
  | 12 => some "last"
  | 13 => some "model"
  | 80 => some "bid"
  | 81 => some "ask"
  | 82 => some "last"
  | 83 => some "model"
  | _ => none

/-- Conditional dict write: `if v is not None: d[key] = v`. -/
def setIfValid (s : Store) (key : String) (v : PVal) : Store :=
  match v with
  | none => s
  | some w => storeSet s key (some w)

/-- Copy `key` from `bucket` into `out` when present
(`if key in bucket: out[key] = bucket[key]`). -/
def syncKey (bucket out : Store) (key : String) : Store :=
  match storeGet bucket key with
  | none => out
  | some v => storeSet out key v

/-- The unqualified greek keys synced to the stream snapshot. -/
def greekKeys : List String := ["iv", "delta", "gamma", "vega", "theta", "undPx"]

/-- The side-qualified greek keys for side `s`. -/
def sideKeys (s : String) : List String :=
  [s ++ "_iv", s ++ "_delta", s ++ "_gamma", s ++ "_vega", s ++ "_theta"]

/-- The bucket-update block of `tickOptionComputation`: write each
already-cleaned greek under its unqualified key when valid, then under
its side-qualified keys when a side is present. -/
def greekBucket (bucket0 : Store) (side : Option String)
    (iv delta gamma vega theta undPx : PVal) : Store :=
  let b1 := setIfValid bucket0 "iv" iv
  let b2 := setIfValid b1 "delta" delta
  let b3 := setIfValid b2 "gamma" gamma
  let b4 := setIfValid b3 "vega" vega
  let b5 := setIfValid b4 "theta" theta
  let b6 := setIfValid b5 "undPx" undPx
  match side with
  | none => b6
  | some s =>
    let s1 := setIfValid b6 (s ++ "_iv") iv
    let s2 := setIfValid s1 (s ++ "_delta") delta
    let s3 := setIfValid s2 (s ++ "_gamma") gamma
    let s4 := setIfValid s3 (s ++ "_vega") vega
    setIfValid s4 (s ++ "_theta") theta

/-- The stream-sync block of `tickOptionComputation`: copy the
unqualified keys present in the bucket into the stream entry, then the
side-qualified keys when a side is present. -/
def streamSync (bucket out0 : Store) (side : Option String) : Store :=
  let out1 := greekKeys.foldl (syncKey bucket) out0
  match side with
  | none => out1
  | some s => (sideKeys s).foldl (syncKey bucket) out1

/-- `IBApp.tickOptionComputation`: clean each incoming greek
(`-1`/non-finite ↦ unavailable), overwrite the per-request bucket only
with valid values (unqualified keys, plus side-qualified keys when the
tick-type code carries a side), then sync the touched keys from the
bucket into the per-key stream snapshot when the request id is a
registered subscription. -/
def tickOptionComputation (st : TickState) (reqId : Nat) (field : Option Nat)
    (ivRaw deltaRaw gammaRaw vegaRaw thetaRaw undPxRaw : PVal) : TickState :=
  let iv := cleanGreek ivRaw
  let delta := cleanGreek deltaRaw
  let gamma := cleanGreek gammaRaw
  let vega := cleanGreek vegaRaw
  let theta := cleanGreek thetaRaw
  let undPx := cleanGreek undPxRaw
  let side := match field with
              | none => none
              | some f => sideOf f
  let bucket0 := (dget st.tickers reqId).getD []
  let bucket := greekBucket bucket0 side iv delta gamma vega theta undPx
  let st1 : TickState := { st with tickers := dset st.tickers reqId bucket }
  match dget st.streamKeyMap reqId with
  | none => st1
  | some k =>
    let out0 := (dget st.streamData k).getD []
    { st1 with streamData := dset st.streamData k (streamSync bucket out0 side) }

/-! ## Server-time oracle (`IBApp.get_server_time`) -/

/-- Cache of the last successful remote time fetch
(`_last_server_time` as seconds since the epoch, `_server_time_ts` as
the monotonic capture instant). -/
structure OracleState where
  lastServerTime : Option ℚ
  serverTimeTs : ℚ
deriving DecidableEq, Repr

/-- `_server_time_extrapolate_max = 6 * 3600`. -/
def SERVER_TIME_EXTRAPOLATE_MAX : ℚ := 6 * 3600

/-- The fallback tail of `get_server_time` (all retries failed):
fresh cache → return it; else extrapolate under the 6-hour ceiling;
else optional hard cache ceiling; else `None`. -/
def serverTimeFallback (st : OracleState) (now : ℚ) (extrapolate : Bool)
    (softCacheAge : ℚ) (hardCacheAge : Option ℚ) : Option ℚ :=
  match st.lastServerTime with
  | none => none
  | some v =>
    let age := now - st.serverTimeTs
    if age < softCacheAge then some v
    else if extrapolate = true ∧ age < SERVER_TIME_EXTRAPOLATE_MAX then some (v + age)
    else
      match hardCacheAge with
      | some h => if age < h then some v else none
      | none => none

/-- `IBApp.get_server_time`: the retry loop is embedded by the list of
fetch outcomes of the individual attempts (`none` = the wait timed
out, `some v` = the remote answered `v`); `now` is the monotonic clock
reading.  The first success updates the cache and returns immediately;
if every attempt fails the fallback runs on the untouched cache. -/
def getServerTime : List (Option ℚ) → OracleState → ℚ → Bool → ℚ → Option ℚ →
    Option ℚ × OracleState
  | [], st, now, extrapolate, soft, hard => (serverTimeFallback st now extrapolate soft hard, st)
  | some v :: _, _, now, _, _, _ => (some v, ⟨some v, now⟩)
  | none :: rest, st, now, extrapolate, soft, hard =>
    getServerTime rest st now extrapolate soft hard

/-! ## Eastern-time calendar model

The source converts server times to US/Eastern with `pytz` and then
works with naive calendar comparisons.  The embedding represents an
already-converted Eastern local datetime at minute resolution; calendar
order stands in for temporal order, which is what every comparison in
the source uses. -/

/-- An Eastern local datetime at minute resolution. -/
structure EDT where
  year : Nat
  month : Nat
  day : Nat
  hour : Nat
  minute : Nat
deriving DecidableEq, Repr

/-- Python `datetime.weekday()`: 0 = Monday … 6 = Sunday, by Zeller's
congruence. -/
def weekday (dt : EDT) : Nat :=
  let y := if dt.month < 3 then dt.year - 1 else dt.year
  let m := if dt.month < 3 then dt.month + 12 else dt.month
  let k := y % 100
  let j := y / 100
  let h := (dt.day + 13 * (m + 1) / 5 + k + k / 4 + j / 4 + 5 * j) % 7
  (h + 5) % 7

/-- `strftime("%Y%m%d")` as a number. -/
def dateNum (dt : EDT) : Nat := dt.year * 10000 + dt.month * 100 + dt.day

/-- Time of day as `hhmm`; numeric order coincides with
`datetime.time` order at minute resolution. -/
def timeNum (dt : EDT) : Nat := dt.hour * 100 + dt.minute

/-- Full datetime as a number; numeric order coincides with Eastern
calendar order. -/
def dtNum (dt : EDT) : Nat := dateNum dt * 10000 + timeNum dt

def isLeapYear (y : Nat) : Bool :=
  (y % 4 = 0 && y % 100 ≠ 0) || y % 400 = 0

def daysInMonth (y m : Nat) : Nat :=
  if m = 2 then (if isLeapYear y then 29 else 28)
  else if m = 4 ∨ m = 6 ∨ m = 9 ∨ m = 11 then 30
  else 31

/-- `dt + timedelta(days=1)` (time of day kept). -/
def nextDayDT (dt : EDT) : EDT :=
  if dt.day < daysInMonth dt.year dt.month then { dt with day := dt.day + 1 }
  else if dt.month < 12 then { dt with month := dt.month + 1, day := 1 }
  else { dt with year := dt.year + 1, month := 1, day := 1 }

/-- The `while d.weekday() >= 5: d += 1 day` loop; a week of fuel
suffices since at most two consecutive days are weekend days. -/
def skipWeekend : Nat → EDT → EDT
  | 0, dt => dt
  | fuel + 1, dt => if 5 ≤ weekday dt then skipWeekend fuel (nextDayDT dt) else dt

/-- `IBApp._calculate_next_trading_day`: the next weekday after
`etNow`, at 09:30 Eastern. -/
def calcNextTradingDay (etNow : EDT) : EDT :=
  let d := skipWeekend 7 (nextDayDT etNow)
  { year := d.year, month := d.month, day := d.day, hour := 9, minute := 30 }

/-! ## Trading-hours parsing (`IBApp._parse_trading_hours`) -/

/-- Python `str.split(sep)` for a one-character separator, on the
character sequence of the string (structurally recursive so that the
kernel can evaluate concrete trading-hours strings). -/
def pySplit (sep : Char) : List Char → List (List Char)
  | [] => [[]]
  | c :: rest =>
    let r := pySplit sep rest
    if c = sep then [] :: r
    else
      match r with
      | h :: t => (c :: h) :: t
      | [] => [[c]]

/-- Python `str.strip()` (the source's ranges only ever carry plain
spaces around them). -/
def pyStrip (cs : List Char) : List Char :=
  ((cs.dropWhile Char.isWhitespace).reverse.dropWhile Char.isWhitespace).reverse

/-- `_split_ranges`: split on `;`, then on `,`, stripping each piece. -/
def splitRanges (s : String) : List (List Char) :=
  (pySplit ';' s.data).flatMap fun seg => (pySplit ',' seg).map pyStrip

def isDigits (cs : List Char) (n : Nat) : Bool :=
  cs.length = n && cs.all Char.isDigit

/-- Numeric value of a digit sequence. -/
def toN (cs : List Char) : Nat :=
  cs.foldl (fun n c => n * 10 + (c.toNat - 48)) 0

/-- The anchored pattern
`^(\d{8}):(\d{4})-((\d{8}):)?(\d{4})$` as an exact parse, returning
`(sdate, stime, edate, etime)` with `edate` defaulted to `sdate` when
absent. -/
def parseRange (rng : List Char) : Option (Nat × Nat × Nat × Nat) :=
  match pySplit '-' rng with
  | [sp, ep] =>
    match pySplit ':' sp with
    | [sd, stm] =>
      if isDigits sd 8 && isDigits stm 4 then
        match pySplit ':' ep with
        | [etm] =>
          if isDigits etm 4 then some (toN sd, toN stm, toN sd, toN etm) else none
        | [ed, etm] =>
          if isDigits ed 8 && isDigits etm 4 then some (toN sd, toN stm, toN ed, toN etm)
          else none
        | _ => none
      else none
    | _ => none
  | _ => none

/-- `IBApp._parse_trading_hours`: some range of today's date, not
marked `CLOSED`, contains the current Eastern time
(`start_dt <= current_time < end_dt`). -/
def parseTradingHours (tradingHours : String) (cur : EDT) : Bool :=
  (splitRanges tradingHours).any fun rng =>
    if "CLOSED".data.isSuffixOf rng then false
    else
      match parseRange rng with
      | none => false
      | some (sd, st, ed, et) =>
        sd = dateNum cur && sd * 10000 + st ≤ dtNum cur && dtNum cur < ed * 10000 + et

/-! ## Session state machine (`IBApp.is_market_open`, `is_regular_market_open`) -/

/-- `IBApp.market_status`.  `lastCheck` is wall-clock seconds. -/
structure MarketStatus where
  isOpen : Bool
  nextOpen : Option EDT
  lastCheck : Option ℚ
deriving DecidableEq, Repr

/-- `STICKY_GRACE = 15 * 60`. -/
def STICKY_GRACE : ℚ := 15 * 60

/-- The trading-hours tail of `is_market_open`: parse today's ranges,
apply the closing-boundary debounce (`was_open` and now closed and
`et.time() <= 16:05` re-checks the recent-trade-volume fallback), then
commit the state. -/
def hoursDecision (status1 : MarketStatus) (wasOpen : Bool) (et : EDT) (th : String)
    (recentTrades : Bool) : MarketStatus :=
  let isOpenNow := parseTradingHours th et
  let isOpenNow :=
    if wasOpen = true ∧ isOpenNow = false then
      if timeNum et ≤ 1605 then (if recentTrades then true else isOpenNow)
      else isOpenNow
    else isOpenNow
  if isOpenNow then { status1 with isOpen := true }
  else { status1 with isOpen := false, nextOpen := some (calcNextTradingDay et) }

/-- `IBApp.is_market_open`.  External effects are embedded as inputs:
`serverTimeET` is the Eastern conversion of the oracle's answer
(`none` when the oracle failed), `nowMono`/`serverTimeTs` the
monotonic clock and the cache capture instant, `lastServerTimeET` the
Eastern conversion of the cached server time, `tradingHours` the
contract-details answer, `recentTrades` the recent-trade-volume
fallback's answer. -/
def isMarketOpen (status : MarketStatus) (now : ℚ) (serverTimeET : Option EDT)
    (nowMono serverTimeTs : ℚ) (lastServerTimeET : Option EDT)
    (tradingHours : Option String) (recentTrades : Bool) : MarketStatus :=
  if (match status.lastCheck with
      | some lc => decide (now - lc < 60)
      | none => false) = true then
    status
  else
    let status1 : MarketStatus := { status with lastCheck := some now }
    let wasOpen := status1.isOpen
    match serverTimeET with
    | none =>
      let age : ℚ := if serverTimeTs ≠ 0 then nowMono - serverTimeTs else 1000000000
      if wasOpen = true ∧ age < STICKY_GRACE then status1
      else
        let status2 : MarketStatus := { status1 with isOpen := false }
        match lastServerTimeET with
        | some t => { status2 with nextOpen := some (calcNextTradingDay t) }
        | none => status2
    | some et =>
      if 5 ≤ weekday et then
        { status1 with isOpen := false, nextOpen := some (calcNextTradingDay et) }
      else
        match tradingHours with
        | none =>
          if recentTrades then { status1 with isOpen := true }
          else { status1 with isOpen := false, nextOpen := some (calcNextTradingDay et) }
        | some th => hoursDecision status1 wasOpen et th recentTrades

/-- The closing-boundary debounce trigger inside `is_market_open`: the
recent-trade-volume fallback is consulted again exactly under this
condition. -/
def debounceRecheck (wasOpen isOpenNow : Bool) (et : EDT) : Bool :=
  wasOpen && !isOpenNow && timeNum et ≤ 1605

/-- `IBApp.is_regular_market_open`: `statusIsOpen` embeds
`market_status.get("is_open", True)` (`none` = key absent). -/
def isRegularMarketOpen (serverTimeET : Option EDT) (statusIsOpen : Option Bool) : Bool :=
  match serverTimeET with
  | none => statusIsOpen.getD true
  | some et =>
    if 5 ≤ weekday et then false
    else decide (930 ≤ timeNum et ∧ timeNum et < 1600)

/-! ## Alert evaluator (`alert_engine.AlertEngine`) -/

/-- `ContractConfig.action`: the two values `_load_from_positions`
produces. -/
inductive Action where
  | SELL
  | BUY
deriving DecidableEq, Repr

/-- `StrategyConfig` with its source defaults. -/
structure StrategyConfig where
  profit_target : ℚ := 1 / 2
  min_dte : ℤ := 21
  sell_delta_threshold : ℚ := 3 / 10
  buy_delta_floor : ℚ := 13 / 20
deriving DecidableEq, Repr

/-- The preference order in `AlertEngine._pick_price`. -/
def pickPriceKeys : List String := ["last", "bid", "ask", "p68", "p66", "p67", "p37"]

def pickPriceAux : List String → Store → Option PFloat
  | [], _ => none
  | k :: rest, d =>
    match pyGet d k with
    | some v => if v.gtZero then some v else pickPriceAux rest d
    | none => pickPriceAux rest d

/-- `AlertEngine._pick_price`: first field in the preference order
that is a number comparing `> 0`. -/
def pickPrice (d : Store) : Option PFloat := pickPriceAux pickPriceKeys d

/-- The price line of `IBApp.snapshot`:
`data.get("last") or data.get("bid") or data.get("ask")` — Python `or`
returns the first truthy operand, else the last operand. -/
def snapPick (d : Store) : PVal :=
  let l := pyGet d "last"
  if pyTruthy l then l
  else
    let b := pyGet d "bid"
    if pyTruthy b then b else pyGet d "ask"

/-- `base = abs(c.premium) or 1e-9`: the divisor of the profit
computation. -/
def profitBase (premium : ℚ) : ℚ :=
  if |premium| = 0 then 1 / 1000000000 else |premium|

/-- The profit fraction of `AlertEngine.loop`: for SELL
`(base - price) / base`, for BUY `(price - base) / base`. -/
def profitPct (action : Action) (premium price : ℚ) : ℚ :=
  let base := profitBase premium
  match action with
  | Action.SELL => (base - price) / base
  | Action.BUY => (price - base) / base

inductive AlertKind where
  | delta
  | profit
  | dte
deriving DecidableEq, Repr

/-- The per-option alert evaluation of `AlertEngine.loop`: skip unless
both a picked price and a delta are present; then the Δ-threshold
check (SELL upper bound, BUY floor), the profit-target check (SELL
only) and the DTE check, in source order. -/
def optionAlerts (rule : StrategyConfig) (action : Action) (premium : ℚ)
    (priceOpt deltaOpt : Option ℚ) (dte : ℤ) : List AlertKind :=
  match priceOpt, deltaOpt with
  | some price, some delta =>
    let deltaAbs := |delta|
    let isSell := action = Action.SELL
    let deltaAlerts :=
      if isSell ∧ deltaAbs ≥ rule.sell_delta_threshold then [AlertKind.delta]
      else if ¬isSell ∧ deltaAbs ≤ rule.buy_delta_floor ∧ deltaAbs > 0 then [AlertKind.delta]
      else []
    let pct := profitPct action premium price
    let profitAlerts :=
      if isSell ∧ pct ≥ rule.profit_target then [AlertKind.profit] else []
    let dteAlerts := if dte ≤ rule.min_dte then [AlertKind.dte] else []
    deltaAlerts ++ profitAlerts ++ dteAlerts
  | _, _ => []

/-! ## Sent-alert ledger (`AlertEngine.sent_alerts`, `trading_date`) -/

/-- The deduplication state: ledger entries `aid ↦ trading date`
(dates as `yyyymmdd` numbers) and the current trading date. -/
structure LedgerState where
  sentAlerts : List (String × Nat)
  tradingDate : Nat
deriving DecidableEq, Repr

/-- `generate_detailed_alert`'s deterministic id
`f"{alert_type}_{key}_{self.trading_date:%Y%m%d}"`. -/
def uniqueId (kind key : String) (date : Nat) : String :=
  kind ++ "_" ++ key ++ "_" ++ toString date

/-- `aid in self.sent_alerts`. -/
def ledgerHas (st : LedgerState) (aid : String) : Bool :=
  st.sentAlerts.any fun p => p.1 == aid

/-- One alert of the delivery loop: if the id is not in the ledger,
deliver the message and record the id with the current trading date;
otherwise drop it. -/
def dispatchStep (acc : LedgerState × List String) (alert : String × String) :
    LedgerState × List String :=
  if ledgerHas acc.1 alert.2 then acc
  else
    ({ acc.1 with sentAlerts := acc.1.sentAlerts ++ [(alert.2, acc.1.tradingDate)] },
     acc.2 ++ [alert.1])

/-- The delivery loop at the end of `AlertEngine.loop`: fold over the
cycle's triggered alerts, returning the new ledger state and the list
of delivered messages. -/
def dispatchAlerts (st : LedgerState) (alerts : List (String × String)) :
    LedgerState × List String :=
  alerts.foldl dispatchStep (st, [])

/-- The trading-day rollover in `AlertEngine._check_market_status`
(taken when the market is open): a new calendar date clears the ledger
and advances the trading date. -/
def advanceTradingDate (st : LedgerState) (currentDate : Nat) : LedgerState :=
  if currentDate ≠ st.tradingDate then { sentAlerts := [], tradingDate := currentDate }
  else st

/-- `n` monitoring cycles each re-detecting the same condition
(`alert`), counting the total number of delivered notifications. -/
def runCycles (st : LedgerState) (alert : String × String) : Nat → LedgerState × Nat
  | 0 => (st, 0)
  | n + 1 =>
    let r := dispatchAlerts st [alert]
    let rest := runCycles r.1 alert n
    (rest.1, r.2.length + rest.2)

/-! ## Helper lemmas -/

section DictLemmas

variable {κ β : Type} [DecidableEq κ]

theorem dget_dset_self (s : Dict κ β) (k : κ) (v : β) : dget (dset s k v) k = some v := by
  induction s with
  | nil => simp [dget, dset]
  | cons hd tl ih =>
    obtain ⟨k', w⟩ := hd
    by_cases h : k' = k <;> simp [dget, dset, h, ih]

theorem dget_dset_ne (s : Dict κ β) (k k' : κ) (v : β) (h : k ≠ k') :
    dget (dset s k v) k' = dget s k' := by
  induction s with
  | nil => simp [dget, dset, h]
  | cons hd tl ih =>
    obtain ⟨k₀, w⟩ := hd
    by_cases h0 : k₀ = k
    · subst h0
      simp [dget, dset, h]
    · simp [dget, dset, h0, ih]

theorem dset_eq_of_dget (s : Dict κ β) (k : κ) (v : β) (h : dget s k = some v) :
    dset s k v = s := by
  induction s with
  | nil => simp [dget] at h
  | cons hd tl ih =>
    obtain ⟨k₀, w⟩ := hd
    by_cases h0 : k₀ = k
    · subst h0
      simp [dget] at h
      simp [dset, h]
    · simp [dget, h0] at h
      simp [dset, h0, ih h]

end DictLemmas

theorem setIfValid_none (s : Store) (key : String) : setIfValid s key none = s := rfl

theorem storeGet_setIfValid_self (s : Store) (key : String) (v : PFloat) :
    storeGet (setIfValid s key (some v)) key = some (some v) :=
  dget_dset_self s key (some v)

theorem storeGet_setIfValid_ne (s : Store) (key key' : String) (v : PVal) (h : key ≠ key') :
    storeGet (setIfValid s key v) key' = storeGet s key' := by
  cases v with
  | none => rfl
  | some w => exact dget_dset_ne s key key' (some w) h

theorem str_data_append (s t : String) : (s ++ t).data = s.data ++ t.data := by
  cases s
  cases t
  rfl

theorem str_append_ne (s t u : String) (h : ¬ t.data <:+ u.data) : s ++ t ≠ u := by
  intro heq
  exact h ⟨s.data, by rw [← str_data_append, heq]⟩

theorem str_append_ne_right (s t u : String) (h : t ≠ u) : s ++ t ≠ s ++ u := by
  intro heq
  apply h
  have hd : s.data ++ t.data = s.data ++ u.data := by
    rw [← str_data_append, ← str_data_append, heq]
  have h2 := List.append_cancel_left hd
  cases t
  cases u
  exact congrArg String.mk h2

theorem syncKey_id (bucket out : Store) (key : String)
    (h : ∀ v, storeGet bucket key = some v → storeGet out key = some v) :
    syncKey bucket out key = out := by
  cases hb : storeGet bucket key with
  | none => simp [syncKey, hb]
  | some v =>
    simp [syncKey, hb]
    exact dset_eq_of_dget out key v (h v hb)

theorem foldl_syncKey_id (bucket : Store) (keys : List String) (out : Store)
    (h : ∀ key v, storeGet bucket key = some v → storeGet out key = some v) :
    keys.foldl (syncKey bucket) out = out := by
  induction keys with
  | nil => rfl
  | cons k ks ih =>
    rw [List.foldl_cons, syncKey_id bucket out k (h k)]
    exact ih

theorem streamSync_id (bucket out0 : Store) (side : Option String)
    (h : ∀ key v, storeGet bucket key = some v → storeGet out0 key = some v) :
    streamSync bucket out0 side = out0 := by
  unfold streamSync
  cases side with
  | none => exact foldl_syncKey_id bucket greekKeys out0 h
  | some s =>
    rw [foldl_syncKey_id bucket greekKeys out0 h]
    exact foldl_syncKey_id bucket (sideKeys s) out0 h

theorem greekBucket_invalid (b0 : Store) (side : Option String) :
    greekBucket b0 side none none none none none none = b0 := by
  cases side <;> rfl

theorem greekBucket_get_iv (b0 : Store) (side : Option String)
    (iv delta gamma vega theta undPx : PVal) :
    storeGet (greekBucket b0 side iv delta gamma vega theta undPx) "iv" =
      match iv with
      | none => storeGet b0 "iv"
      | some v => some (some v) := by
  have tail : storeGet (setIfValid (setIfValid (setIfValid (setIfValid (setIfValid (setIfValid b0 "iv" iv) "delta" delta) "gamma" gamma) "vega" vega) "theta" theta) "undPx" undPx) "iv" =
      match iv with
      | none => storeGet b0 "iv"
      | some v => some (some v) := by
    rw [storeGet_setIfValid_ne _ _ _ _ (by decide),
        storeGet_setIfValid_ne _ _ _ _ (by decide),
        storeGet_setIfValid_ne _ _ _ _ (by decide),
        storeGet_setIfValid_ne _ _ _ _ (by decide),
        storeGet_setIfValid_ne _ _ _ _ (by decide)]
    cases iv with
    | none => rw [setIfValid_none]
    | some v => simp [storeGet_setIfValid_self]
  cases side with
  | none => exact tail
  | some s =>
    show storeGet (setIfValid _ (s ++ "_theta") theta) "iv" = _
    rw [storeGet_setIfValid_ne _ _ _ _ (str_append_ne _ _ _ (by decide)),
        storeGet_setIfValid_ne _ _ _ _ (str_append_ne _ _ _ (by decide)),
        storeGet_setIfValid_ne _ _ _ _ (str_append_ne _ _ _ (by decide)),
        storeGet_setIfValid_ne _ _ _ _ (str_append_ne _ _ _ (by decide)),
        storeGet_setIfValid_ne _ _ _ _ (str_append_ne _ _ _ (by decide))]
    exact tail

theorem greekBucket_get_delta (b0 : Store) (side : Option String)
    (iv delta gamma vega theta undPx : PVal) :
    storeGet (greekBucket b0 side iv delta gamma vega theta undPx) "delta" =
      match delta with
      | none => storeGet b0 "delta"
      | some v => some (some v) := by
  have tail : storeGet (setIfValid (setIfValid (setIfValid (setIfValid (setIfValid (setIfValid b0 "iv" iv) "delta" delta) "gamma" gamma) "vega" vega) "theta" theta) "undPx" undPx) "delta" =
      match delta with
      | none => storeGet b0 "delta"
      | some v => some (some v) := by
    rw [storeGet_setIfValid_ne _ _ _ _ (by decide),
        storeGet_setIfValid_ne _ _ _ _ (by decide),
        storeGet_setIfValid_ne _ _ _ _ (by decide),
        storeGet_setIfValid_ne _ _ _ _ (by decide)]
    cases delta with
    | none => rw [setIfValid_none, storeGet_setIfValid_ne _ _ _ _ (by decide)]
    | some v => simp [storeGet_setIfValid_self]
  cases side with
  | none => exact tail
  | some s =>
    show storeGet (setIfValid _ (s ++ "_theta") theta) "delta" = _
    rw [storeGet_setIfValid_ne _ _ _ _ (str_append_ne _ _ _ (by decide)),
        storeGet_setIfValid_ne _ _ _ _ (str_append_ne _ _ _ (by decide)),
        storeGet_setIfValid_ne _ _ _ _ (str_append_ne _ _ _ (by decide)),
        storeGet_setIfValid_ne _ _ _ _ (str_append_ne _ _ _ (by decide)),
        storeGet_setIfValid_ne _ _ _ _ (str_append_ne _ _ _ (by decide))]
    exact tail

theorem greekBucket_get_gamma (b0 : Store) (side : Option String)
    (iv delta gamma vega theta undPx : PVal) :
    storeGet (greekBucket b0 side iv delta gamma vega theta undPx) "gamma" =
      match gamma with
      | none => storeGet b0 "gamma"
      | some v => some (some v) := by
  have tail : storeGet (setIfValid (setIfValid (setIfValid (setIfValid (setIfValid (setIfValid b0 "iv" iv) "delta" delta) "gamma" gamma) "vega" vega) "theta" theta) "undPx" undPx) "gamma" =
      match gamma with
      | none => storeGet b0 "gamma"
      | some v => some (some v) := by
    rw [storeGet_setIfValid_ne _ _ _ _ (by decide),
        storeGet_setIfValid_ne _ _ _ _ (by decide),
        storeGet_setIfValid_ne _ _ _ _ (by decide)]
    cases gamma with
    | none => rw [setIfValid_none, storeGet_setIfValid_ne _ _ _ _ (by decide), storeGet_setIfValid_ne _ _ _ _ (by decide)]
    | some v => simp [storeGet_setIfValid_self]
  cases side with
  | none => exact tail
  | some s =>
    show storeGet (setIfValid _ (s ++ "_theta") theta) "gamma" = _
    rw [storeGet_setIfValid_ne _ _ _ _ (str_append_ne _ _ _ (by decide)),
        storeGet_setIfValid_ne _ _ _ _ (str_append_ne _ _ _ (by decide)),
        storeGet_setIfValid_ne _ _ _ _ (str_append_ne _ _ _ (by decide)),
        storeGet_setIfValid_ne _ _ _ _ (str_append_ne _ _ _ (by decide)),
        storeGet_setIfValid_ne _ _ _ _ (str_append_ne _ _ _ (by decide))]
    exact tail

theorem greekBucket_get_vega (b0 : Store) (side : Option String)
    (iv delta gamma vega theta undPx : PVal) :
    storeGet (greekBucket b0 side iv delta gamma vega theta undPx) "vega" =
      match vega with
      | none => storeGet b0 "vega"
      | some v => some (some v) := by
  have tail : storeGet (setIfValid (setIfValid (setIfValid (setIfValid (setIfValid (setIfValid b0 "iv" iv) "delta" delta) "gamma" gamma) "vega" vega) "theta" theta) "undPx" undPx) "vega" =
      match vega with
      | none => storeGet b0 "vega"
      | some v => some (some v) := by
    rw [storeGet_setIfValid_ne _ _ _ _ (by decide),
        storeGet_setIfValid_ne _ _ _ _ (by decide)]
    cases vega with
    | none => rw [setIfValid_none, storeGet_setIfValid_ne _ _ _ _ (by decide), storeGet_setIfValid_ne _ _ _ _ (by decide), storeGet_setIfValid_ne _ _ _ _ (by decide)]
    | some v => simp [storeGet_setIfValid_self]
  cases side with
  | none => exact tail
  | some s =>
    show storeGet (setIfValid _ (s ++ "_theta") theta) "vega" = _
    rw [storeGet_setIfValid_ne _ _ _ _ (str_append_ne _ _ _ (by decide)),
        storeGet_setIfValid_ne _ _ _ _ (str_append_ne _ _ _ (by decide)),
        storeGet_setIfValid_ne _ _ _ _ (str_append_ne _ _ _ (by decide)),
        storeGet_setIfValid_ne _ _ _ _ (str_append_ne _ _ _ (by decide)),
        storeGet_setIfValid_ne _ _ _ _ (str_append_ne _ _ _ (by decide))]
    exact tail

theorem greekBucket_get_theta (b0 : Store) (side : Option String)
    (iv delta gamma vega theta undPx : PVal) :
    storeGet (greekBucket b0 side iv delta gamma vega theta undPx) "theta" =
      match theta with
      | none => storeGet b0 "theta"
      | some v => some (some v) := by
  have tail : storeGet (setIfValid (setIfValid (setIfValid (setIfValid (setIfValid (setIfValid b0 "iv" iv) "delta" delta) "gamma" gamma) "vega" vega) "theta" theta) "undPx" undPx) "theta" =
      match theta with
      | none => storeGet b0 "theta"
      | some v => some (some v) := by
    rw [storeGet_setIfValid_ne _ _ _ _ (by decide)]
    cases theta with
    | none => rw [setIfValid_none, storeGet_setIfValid_ne _ _ _ _ (by decide), storeGet_setIfValid_ne _ _ _ _ (by decide), storeGet_setIfValid_ne _ _ _ _ (by decide), storeGet_setIfValid_ne _ _ _ _ (by decide)]
    | some v => simp [storeGet_setIfValid_self]
  cases side with
  | none => exact tail
  | some s =>
    show storeGet (setIfValid _ (s ++ "_theta") theta) "theta" = _
    rw [storeGet_setIfValid_ne _ _ _ _ (str_append_ne _ _ _ (by decide)),
        storeGet_setIfValid_ne _ _ _ _ (str_append_ne _ _ _ (by decide)),
        storeGet_setIfValid_ne _ _ _ _ (str_append_ne _ _ _ (by decide)),
        storeGet_setIfValid_ne _ _ _ _ (str_append_ne _ _ _ (by decide)),
        storeGet_setIfValid_ne _ _ _ _ (str_append_ne _ _ _ (by decide))]
    exact tail

theorem greekBucket_get_undPx (b0 : Store) (side : Option String)
    (iv delta gamma vega theta undPx : PVal) :
    storeGet (greekBucket b0 side iv delta gamma vega theta undPx) "undPx" =
      match undPx with
      | none => storeGet b0 "undPx"
      | some v => some (some v) := by
  have tail : storeGet (setIfValid (setIfValid (setIfValid (setIfValid (setIfValid (setIfValid b0 "iv" iv) "delta" delta) "gamma" gamma) "vega" vega) "theta" theta) "undPx" undPx) "undPx" =
      match undPx with
      | none => storeGet b0 "undPx"
      | some v => some (some v) := by
    cases undPx with
    | none => rw [setIfValid_none, storeGet_setIfValid_ne _ _ _ _ (by decide), storeGet_setIfValid_ne _ _ _ _ (by decide), storeGet_setIfValid_ne _ _ _ _ (by decide), storeGet_setIfValid_ne _ _ _ _ (by decide), storeGet_setIfValid_ne _ _ _ _ (by decide)]
    | some v => simp [storeGet_setIfValid_self]
  cases side with
  | none => exact tail
  | some s =>
    show storeGet (setIfValid _ (s ++ "_theta") theta) "undPx" = _
    rw [storeGet_setIfValid_ne _ _ _ _ (str_append_ne _ _ _ (by decide)),
        storeGet_setIfValid_ne _ _ _ _ (str_append_ne _ _ _ (by decide)),
        storeGet_setIfValid_ne _ _ _ _ (str_append_ne _ _ _ (by decide)),
        storeGet_setIfValid_ne _ _ _ _ (str_append_ne _ _ _ (by decide)),
        storeGet_setIfValid_ne _ _ _ _ (str_append_ne _ _ _ (by decide))]
    exact tail

theorem greekBucket_get_side_iv (b0 : Store) (s : String)
    (iv delta gamma vega theta undPx : PVal) :
    storeGet (greekBucket b0 (some s) iv delta gamma vega theta undPx) (s ++ "_iv") =
      match iv with
      | none => storeGet b0 (s ++ "_iv")
      | some v => some (some v) := by
  show storeGet (setIfValid _ (s ++ "_theta") theta) (s ++ "_iv") = _
  rw [storeGet_setIfValid_ne _ _ _ _ (str_append_ne_right _ _ _ (by decide)),
      storeGet_setIfValid_ne _ _ _ _ (str_append_ne_right _ _ _ (by decide)),
      storeGet_setIfValid_ne _ _ _ _ (str_append_ne_right _ _ _ (by decide)),
      storeGet_setIfValid_ne _ _ _ _ (str_append_ne_right _ _ _ (by decide))]
  cases iv with
  | none =>
    rw [setIfValid_none,
        storeGet_setIfValid_ne _ _ _ _ (Ne.symm (str_append_ne _ _ _ (by decide))),
        storeGet_setIfValid_ne _ _ _ _ (Ne.symm (str_append_ne _ _ _ (by decide))),
        storeGet_setIfValid_ne _ _ _ _ (Ne.symm (str_append_ne _ _ _ (by decide))),
        storeGet_setIfValid_ne _ _ _ _ (Ne.symm (str_append_ne _ _ _ (by decide))),
        storeGet_setIfValid_ne _ _ _ _ (Ne.symm (str_append_ne _ _ _ (by decide))),
        storeGet_setIfValid_ne _ _ _ _ (Ne.symm (str_append_ne _ _ _ (by decide)))]
  | some v => simp [storeGet_setIfValid_self]

theorem greekBucket_get_side_delta (b0 : Store) (s : String)
    (iv delta gamma vega theta undPx : PVal) :
    storeGet (greekBucket b0 (some s) iv delta gamma vega theta undPx) (s ++ "_delta") =
      match delta with
      | none => storeGet b0 (s ++ "_delta")
      | some v => some (some v) := by
  show storeGet (setIfValid _ (s ++ "_theta") theta) (s ++ "_delta") = _
  rw [storeGet_setIfValid_ne _ _ _ _ (str_append_ne_right _ _ _ (by decide)),
      storeGet_setIfValid_ne _ _ _ _ (str_append_ne_right _ _ _ (by decide)),
      storeGet_setIfValid_ne _ _ _ _ (str_append_ne_right _ _ _ (by decide))]
  cases delta with
  | none =>
    rw [setIfValid_none,
        storeGet_setIfValid_ne _ _ _ _ (str_append_ne_right _ _ _ (by decide)),
        storeGet_setIfValid_ne _ _ _ _ (Ne.symm (str_append_ne _ _ _ (by decide))),
        storeGet_setIfValid_ne _ _ _ _ (Ne.symm (str_append_ne _ _ _ (by decide))),
        storeGet_setIfValid_ne _ _ _ _ (Ne.symm (str_append_ne _ _ _ (by decide))),
        storeGet_setIfValid_ne _ _ _ _ (Ne.symm (str_append_ne _ _ _ (by decide))),
        storeGet_setIfValid_ne _ _ _ _ (Ne.symm (str_append_ne _ _ _ (by decide))),
        storeGet_setIfValid_ne _ _ _ _ (Ne.symm (str_append_ne _ _ _ (by decide)))]
  | some v => simp [storeGet_setIfValid_self]

theorem greekBucket_get_side_gamma (b0 : Store) (s : String)
    (iv delta gamma vega theta undPx : PVal) :
    storeGet (greekBucket b0 (some s) iv delta gamma vega theta undPx) (s ++ "_gamma") =
      match gamma with
      | none => storeGet b0 (s ++ "_gamma")
      | some v => some (some v) := by
  show storeGet (setIfValid _ (s ++ "_theta") theta) (s ++ "_gamma") = _
  rw [storeGet_setIfValid_ne _ _ _ _ (str_append_ne_right _ _ _ (by decide)),
      storeGet_setIfValid_ne _ _ _ _ (str_append_ne_right _ _ _ (by decide))]
  cases gamma with
  | none =>
    rw [setIfValid_none,
        storeGet_setIfValid_ne _ _ _ _ (str_append_ne_right _ _ _ (by decide)),
        storeGet_setIfValid_ne _ _ _ _ (str_append_ne_right _ _ _ (by decide)),
        storeGet_setIfValid_ne _ _ _ _ (Ne.symm (str_append_ne _ _ _ (by decide))),
        storeGet_setIfValid_ne _ _ _ _ (Ne.symm (str_append_ne _ _ _ (by decide))),
        storeGet_setIfValid_ne _ _ _ _ (Ne.symm (str_append_ne _ _ _ (by decide))),
        storeGet_setIfValid_ne _ _ _ _ (Ne.symm (str_append_ne _ _ _ (by decide))),
        storeGet_setIfValid_ne _ _ _ _ (Ne.symm (str_append_ne _ _ _ (by decide))),
        storeGet_setIfValid_ne _ _ _ _ (Ne.symm (str_append_ne _ _ _ (by decide)))]
  | some v => simp [storeGet_setIfValid_self]

theorem greekBucket_get_side_vega (b0 : Store) (s : String)
    (iv delta gamma vega theta undPx : PVal) :
    storeGet (greekBucket b0 (some s) iv delta gamma vega theta undPx) (s ++ "_vega") =
      match vega with
      | none => storeGet b0 (s ++ "_vega")
      | some v => some (some v) := by
  show storeGet (setIfValid _ (s ++ "_theta") theta) (s ++ "_vega") = _
  rw [storeGet_setIfValid_ne _ _ _ _ (str_append_ne_right _ _ _ (by decide))]
  cases vega with
  | none =>
    rw [setIfValid_none,
        storeGet_setIfValid_ne _ _ _ _ (str_append_ne_right _ _ _ (by decide)),
        storeGet_setIfValid_ne _ _ _ _ (str_append_ne_right _ _ _ (by decide)),
        storeGet_setIfValid_ne _ _ _ _ (str_append_ne_right _ _ _ (by decide)),
        storeGet_setIfValid_ne _ _ _ _ (Ne.symm (str_append_ne _ _ _ (by decide))),
        storeGet_setIfValid_ne _ _ _ _ (Ne.symm (str_append_ne _ _ _ (by decide))),
        storeGet_setIfValid_ne _ _ _ _ (Ne.symm (str_append_ne _ _ _ (by decide))),
        storeGet_setIfValid_ne _ _ _ _ (Ne.symm (str_append_ne _ _ _ (by decide))),
        storeGet_setIfValid_ne _ _ _ _ (Ne.symm (str_append_ne _ _ _ (by decide))),
        storeGet_setIfValid_ne _ _ _ _ (Ne.symm (str_append_ne _ _ _ (by decide)))]
  | some v => simp [storeGet_setIfValid_self]

theorem greekBucket_get_side_theta (b0 : Store) (s : String)
    (iv delta gamma vega theta undPx : PVal) :
    storeGet (greekBucket b0 (some s) iv delta gamma vega theta undPx) (s ++ "_theta") =
      match theta with
      | none => storeGet b0 (s ++ "_theta")
      | some v => some (some v) := by
  show storeGet (setIfValid _ (s ++ "_theta") theta) (s ++ "_theta") = _
  cases theta with
  | none =>
    rw [setIfValid_none,
        storeGet_setIfValid_ne _ _ _ _ (str_append_ne_right _ _ _ (by decide)),
        storeGet_setIfValid_ne _ _ _ _ (str_append_ne_right _ _ _ (by decide)),
        storeGet_setIfValid_ne _ _ _ _ (str_append_ne_right _ _ _ (by decide)),
        storeGet_setIfValid_ne _ _ _ _ (str_append_ne_right _ _ _ (by decide)),
        storeGet_setIfValid_ne _ _ _ _ (Ne.symm (str_append_ne _ _ _ (by decide))),
        storeGet_setIfValid_ne _ _ _ _ (Ne.symm (str_append_ne _ _ _ (by decide))),
        storeGet_setIfValid_ne _ _ _ _ (Ne.symm (str_append_ne _ _ _ (by decide))),
        storeGet_setIfValid_ne _ _ _ _ (Ne.symm (str_append_ne _ _ _ (by decide))),
        storeGet_setIfValid_ne _ _ _ _ (Ne.symm (str_append_ne _ _ _ (by decide))),
        storeGet_setIfValid_ne _ _ _ _ (Ne.symm (str_append_ne _ _ _ (by decide)))]
  | some v => simp [storeGet_setIfValid_self]

/-- `rule = StrategyConfig()` as constructed in `main.py` (all
defaults). -/
def defaultRule : StrategyConfig := {}

theorem profitBase_pos (p : ℚ) : 0 < profitBase p := by
  unfold profitBase
  split
  · norm_num
  · rename_i h
    exact lt_of_le_of_ne (abs_nonneg p) (Ne.symm h)

theorem pickPriceAux_pos :
    ∀ (keys : List String) (d : Store) (v : PFloat),
      pickPriceAux keys d = some v → v.gtZero = true
  | [], d, v, h => by simp [pickPriceAux] at h
  | k :: ks, d, v, h => by
    unfold pickPriceAux at h
    cases hg : pyGet d k with
    | none =>
      rw [hg] at h
      exact pickPriceAux_pos ks d v h
    | some w =>
      rw [hg] at h
      by_cases hw : w.gtZero = true
      · simp [hw] at h
        subst h
        exact hw
      · simp [hw] at h
        exact pickPriceAux_pos ks d v h

/-! ## Claim theorems -/

/-- C2 (counterexample): the claim says a tick price update with a
non-finite value leaves the cached snapshot entirely unchanged, but
`tickPrice` only rejects `None` and values comparing `< 0`; a `+∞`
last-price update passes the filter (`inf < 0` is false in Python) and
overwrites the previously cached value 100 in both the per-request
entry and the stream snapshot. -/
theorem C2_nonfinite_price_counterexample :
    tickPrice ⟨[(7, [("last", some (PFloat.num 100))])], [(7, "SPY")],
        [("SPY", [("last", some (PFloat.num 100))])]⟩ 7 4 (some PFloat.inf) ≠
      ⟨[(7, [("last", some (PFloat.num 100))])], [(7, "SPY")],
        [("SPY", [("last", some (PFloat.num 100))])]⟩ ∧
    storeGet ((dget (tickPrice ⟨[(7, [("last", some (PFloat.num 100))])], [(7, "SPY")],
        [("SPY", [("last", some (PFloat.num 100))])]⟩ 7 4 (some PFloat.inf)).tickers 7).getD [])
        "last" = some (some PFloat.inf) ∧
    PFloat.inf.isFinite = false := by
  refine ⟨?_, by decide, by decide⟩
  decide

/-- C2 (amended): for every tick price update on a price-like field
whose value is `None` or compares `< 0` (negative finite values and
`-inf`), the cached snapshot is left entirely unchanged — neither the
per-request tickers entry nor the per-key stream snapshot entry is
touched, so the prior cached value for that field is kept.  (Non-finite
values `nan`/`+inf` are not filtered by `tickPrice` and do overwrite,
per the counterexample.) -/
theorem C2_invalid_price_frame (st : TickState) (reqId field : Nat) (price : PVal)
    (hf : field ∈ priceLikeFields)
    (hp : price = none ∨ (price.getD (PFloat.num 0)).ltZero = true) :
    tickPrice st reqId field price = st := by
  unfold tickPrice
  rw [if_pos ⟨hf, hp⟩]

/-- C2 witness: a concrete negative last-price update is dropped. -/
theorem C2_invalid_price_frame_witness :
    4 ∈ priceLikeFields ∧
    tickPrice ⟨[(3, [("last", some (PFloat.num 100))])], [], []⟩ 3 4
        (some (PFloat.num (-5))) =
      ⟨[(3, [("last", some (PFloat.num 100))])], [], []⟩ :=
  ⟨by decide, C2_invalid_price_frame _ _ _ _ (by decide) (Or.inr (by decide))⟩

/-- C8 (counterexample): the claim says the snapshot price pick skips
every field that is not strictly positive, so the selected price is
never zero — but the Python `or`-chain returns its last operand even
when falsy, so with `ask = 0.0` (and `last`/`bid` absent) the one-shot
snapshot price is exactly `0.0`. -/
theorem C8_zero_price_counterexample :
    snapPick [("ask", some (PFloat.num 0))] = some (PFloat.num 0) ∧
    (PFloat.num 0).gtZero = false := by
  exact ⟨by decide, by decide⟩

/-- C8 (amended): in `_pick_price` each field in the preference order
is skipped when absent, `None`, or not comparing `> 0`, so its result
is always `None` or a value with `> 0`; in the one-shot snapshot's
`or`-chain, `last` and `bid` are skipped exactly when falsy (absent,
`None`, or zero — zero is treated as missing there), but the `ask`
value is returned as-is when both are falsy, so that chain alone can
still produce zero (per the counterexample). -/
theorem C8_pick_price_amended :
    (∀ (d : Store) (v : PFloat), pickPrice d = some v → v.gtZero = true) ∧
    (∀ d : Store, pyTruthy (pyGet d "last") = true → snapPick d = pyGet d "last") ∧
    (∀ d : Store, pyTruthy (pyGet d "last") = false → pyTruthy (pyGet d "bid") = true →
      snapPick d = pyGet d "bid") ∧
    (∀ d : Store, pyTruthy (pyGet d "last") = false → pyTruthy (pyGet d "bid") = false →
      snapPick d = pyGet d "ask") ∧
    pyTruthy (some (PFloat.num 0)) = false := by
  refine ⟨fun d v h => pickPriceAux_pos pickPriceKeys d v h, ?_, ?_, ?_, by decide⟩
  · intro d h
    simp [snapPick, h]
  · intro d h1 h2
    simp [snapPick, h1, h2]
  · intro d h1 h2
    simp [snapPick, h1, h2]

/-- C8 witness: a strictly positive `ask` is picked by `_pick_price`
and is indeed positive; a truthy `last` is returned by the snapshot
chain. -/
theorem C8_pick_price_amended_witness :
    pickPrice [("ask", some (PFloat.num 5))] = some (PFloat.num 5) ∧
    (PFloat.num 5).gtZero = true ∧
    snapPick [("last", some (PFloat.num 3))] = some (PFloat.num 3) :=
  ⟨by decide, C8_pick_price_amended.1 [("ask", some (PFloat.num 5))] (PFloat.num 5) (by decide),
    by
      have h := C8_pick_price_amended.2.1 [("last", some (PFloat.num 3))] (by decide)
      rw [h]
      decide⟩

/-- C9: when the server-time oracle returns no time,
`is_regular_market_open` does not consult the weekday/09:30–16:00
window at all and returns the previously computed session-state
`is_open` value unchanged, defaulting to open if the state key were
ever missing; a transient time-source outage therefore never flips the
cheap regular-hours check to closed on its own. -/
theorem C9_regular_open_fallback :
    (∀ prior : Option Bool, isRegularMarketOpen none prior = prior.getD true) ∧
    (∀ b : Bool, isRegularMarketOpen none (some b) = b) ∧
    isRegularMarketOpen none none = true :=
  ⟨fun _ => rfl, fun _ => rfl, rfl⟩

/-- C10: the profit divisor is the absolute reference premium with
`1e-9` substituted when that is zero, so it is strictly positive for
every premium (never a division by zero), and the profit fraction is
exactly the quotient of the directed price difference by that
divisor — total for every monitored contract. -/
theorem C10_profit_base_total :
    (∀ premium : ℚ, 0 < profitBase premium) ∧
    profitBase 0 = 1 / 1000000000 ∧
    (∀ (a : Action) (premium price : ℚ),
      profitPct a premium price * profitBase premium =
        (match a with
         | Action.SELL => profitBase premium - price
         | Action.BUY => price - profitBase premium)) := by
  refine ⟨profitBase_pos, by norm_num [profitBase], ?_⟩
  intro a p x
  have hb : profitBase p ≠ 0 := ne_of_gt (profitBase_pos p)
  cases a <;> simp only [profitPct] <;> exact div_mul_cancel₀ _ hb

theorem getServerTime_all_fail :
    ∀ (fetches : List (Option ℚ)) (st : OracleState) (now : ℚ) (ex : Bool) (soft : ℚ)
      (hard : Option ℚ), (∀ f ∈ fetches, f = none) →
      getServerTime fetches st now ex soft hard = (serverTimeFallback st now ex soft hard, st)
  | [], _, _, _, _, _, _ => rfl
  | f :: rest, st, now, ex, soft, hard, h => by
    have hf : f = none := h f (by simp)
    subst hf
    show getServerTime rest st now ex soft hard = _
    exact getServerTime_all_fail rest st now ex soft hard fun g hg => h g (by simp [hg])

theorem getServerTime_cache_stable :
    ∀ (fetches : List (Option ℚ)) (st : OracleState) (now : ℚ) (ex : Bool) (soft : ℚ)
      (hard : Option ℚ), (getServerTime fetches st now ex soft hard).2 ≠ st →
      ∃ w, some w ∈ fetches
  | [], _, _, _, _, _, h => absurd rfl h
  | some v :: _, _, _, _, _, _, _ => ⟨v, by simp⟩
  | none :: rest, st, now, ex, soft, hard, h => by
    obtain ⟨w, hw⟩ := getServerTime_cache_stable rest st now ex soft hard h
    exact ⟨w, by simp [hw]⟩

/-- C3: when every retry attempt of `get_server_time` fails and a
cached server time exists, the cache is left untouched and the result
follows the fallback ladder on the cache's monotonic age: below
`soft_cache_age` the cached value is returned exactly (no drift);
otherwise, with extrapolation enabled and age below the 6-hour
ceiling, the cached value plus the elapsed monotonic age; otherwise,
with `hard_cache_age` given and age below it, the stale cached value;
otherwise `None`.  A successful fetch is the only path that can change
the cache. -/
theorem C3_server_time_fallback (fetches : List (Option ℚ)) (st : OracleState)
    (now soft : ℚ) (ex : Bool) (hard : Option ℚ) (v : ℚ)
    (hfail : ∀ f ∈ fetches, f = none) (hcache : st.lastServerTime = some v) :
    (getServerTime fetches st now ex soft hard).2 = st ∧
    (now - st.serverTimeTs < soft →
      (getServerTime fetches st now ex soft hard).1 = some v) ∧
    (¬ now - st.serverTimeTs < soft → ex = true →
      now - st.serverTimeTs < SERVER_TIME_EXTRAPOLATE_MAX →
      (getServerTime fetches st now ex soft hard).1 = some (v + (now - st.serverTimeTs))) ∧
    (¬ now - st.serverTimeTs < soft →
      ¬ (ex = true ∧ now - st.serverTimeTs < SERVER_TIME_EXTRAPOLATE_MAX) →
      ∀ h : ℚ, hard = some h →
        (now - st.serverTimeTs < h →
          (getServerTime fetches st now ex soft hard).1 = some v) ∧
        (¬ now - st.serverTimeTs < h →
          (getServerTime fetches st now ex soft hard).1 = none)) ∧
    (¬ now - st.serverTimeTs < soft →
      ¬ (ex = true ∧ now - st.serverTimeTs < SERVER_TIME_EXTRAPOLATE_MAX) →
      hard = none → (getServerTime fetches st now ex soft hard).1 = none) ∧
    (∀ fetches2 : List (Option ℚ),
      (getServerTime fetches2 st now ex soft hard).2 ≠ st → ∃ w, some w ∈ fetches2) := by
  rw [getServerTime_all_fail fetches st now ex soft hard hfail]
  refine ⟨rfl, ?_, ?_, ?_, ?_, fun f2 h2 => getServerTime_cache_stable f2 st now ex soft hard h2⟩
  · intro hsoft
    simp [serverTimeFallback, hcache, hsoft]
  · intro hsoft hex hmax
    simp [serverTimeFallback, hcache, hsoft, hex, hmax]
  · intro hsoft hrest h hh
    subst hh
    constructor
    · intro hhard
      simp [serverTimeFallback, hcache, hsoft, hrest, hhard]
    · intro hhard
      simp [serverTimeFallback, hcache, hsoft, hrest, hhard]
  · intro hsoft hrest hh
    subst hh
    simp [serverTimeFallback, hcache, hsoft, hrest]

/-- C3 witness: three failed attempts with a 50-second-old cache under
`soft_cache_age = 90` return exactly the cached value, cache
untouched. -/
theorem C3_server_time_fallback_witness :
    (getServerTime [none, none, none] ⟨some 1000, 50⟩ 100 true 90 none).1 = some 1000 ∧
    (getServerTime [none, none, none] ⟨some 1000, 50⟩ 100 true 90 none).2 =
      ⟨some 1000, 50⟩ := by
  have h := C3_server_time_fallback [none, none, none] ⟨some 1000, 50⟩ 100 90 true none 1000
    (by decide) rfl
  exact ⟨h.2.1 (by norm_num), h.1⟩

/-- C4: sticky-open — if the previous session state was open and the
server-time oracle returned no time, `is_market_open` keeps reporting
open with `is_open` and `next_open` unchanged (only the rate-limit
stamp `last_check` is refreshed) whenever the monotonic time since the
last successful time resolution is under the 15-minute grace window;
once the grace window is exceeded it marks the market closed and
computes the next open time from the last known server time. -/
theorem C4_sticky_open (status : MarketStatus) (now nowMono ts : ℚ)
    (lastET : Option EDT) (th : Option String) (rt : Bool)
    (hrate : ∀ lc, status.lastCheck = some lc → ¬ now - lc < 60)
    (hopen : status.isOpen = true) :
    (ts ≠ 0 → nowMono - ts < STICKY_GRACE →
      isMarketOpen status now none nowMono ts lastET th rt =
        { status with lastCheck := some now } ∧
      (isMarketOpen status now none nowMono ts lastET th rt).isOpen = true ∧
      (isMarketOpen status now none nowMono ts lastET th rt).nextOpen = status.nextOpen) ∧
    (∀ t : EDT, lastET = some t →
      ¬ (if ts ≠ 0 then nowMono - ts else 1000000000) < STICKY_GRACE →
      isMarketOpen status now none nowMono ts lastET th rt =
        ⟨false, some (calcNextTradingDay t), some now⟩) := by
  have hcond : (match status.lastCheck with
      | some lc => decide (now - lc < 60)
      | none => false) = false := by
    cases hlc : status.lastCheck with
    | none => rfl
    | some lc => simpa using hrate lc hlc
  constructor
  · intro hts hage
    unfold isMarketOpen
    rw [hcond]
    simp only [Bool.false_eq_true, if_false]
    rw [if_pos ⟨by simpa using hopen, by rwa [if_pos hts]⟩]
    exact ⟨rfl, by simp [hopen], rfl⟩
  · intro t hlast hage
    subst hlast
    unfold isMarketOpen
    rw [hcond]
    simp only [Bool.false_eq_true, if_false]
    rw [if_neg (fun hc => hage hc.2)]

/-- C4 witness: with the cache captured at monotonic 50 and the clock
at 100 the grace window holds and the state stays open; with the clock
at 2000 the window (900 s) is exceeded and the state flips to closed
with the next open computed from the last known Thursday time. -/
theorem C4_sticky_open_witness :
    isMarketOpen ⟨true, none, none⟩ 0 none 100 50 (some ⟨2025, 7, 24, 13, 0⟩) none true =
      ⟨true, none, some 0⟩ ∧
    isMarketOpen ⟨true, none, none⟩ 0 none 2000 50 (some ⟨2025, 7, 24, 13, 0⟩) none true =
      ⟨false, some (calcNextTradingDay ⟨2025, 7, 24, 13, 0⟩), some 0⟩ := by
  have h1 := (C4_sticky_open ⟨true, none, none⟩ 0 100 50 (some ⟨2025, 7, 24, 13, 0⟩) none true
    (fun lc h => Option.noConfusion h) rfl).1 (by norm_num)
    (by norm_num [STICKY_GRACE])
  have h2 := (C4_sticky_open ⟨true, none, none⟩ 0 2000 50 (some ⟨2025, 7, 24, 13, 0⟩) none true
    (fun lc h => Option.noConfusion h) rfl).2 ⟨2025, 7, 24, 13, 0⟩ rfl
    (by norm_num [STICKY_GRACE])
  exact ⟨h1.1, h2⟩

theorem profit_mem_optionAlerts (rule : StrategyConfig) (a : Action)
    (premium price delta : ℚ) (dte : ℤ) :
    AlertKind.profit ∈ optionAlerts rule a premium (some price) (some delta) dte ↔
      (a = Action.SELL ∧ profitPct a premium price ≥ rule.profit_target) := by
  cases a <;>
    · simp only [optionAlerts, List.mem_append]
      split_ifs <;> simp_all

/-- C7 (counterexample): a short option with reference premium 2.00
and current price 1.10 yields a profit fraction of 45 %, not the −5 %
stated by the claim (the no-fire conclusion itself is right: 45 % is
below the 50 % target). -/
theorem C7_profit_counterexample :
    profitPct Action.SELL 2 (11 / 10) = 9 / 20 ∧ ((9 : ℚ) / 20 ≠ -(1 / 20)) ∧
    AlertKind.profit ∉ optionAlerts defaultRule Action.SELL 2 (some (11 / 10))
      (some (1 / 10)) 30 := by
  refine ⟨?_, by norm_num, ?_⟩
  · show (profitBase 2 - 11 / 10) / profitBase 2 = 9 / 20
    norm_num [profitBase]
  · rw [profit_mem_optionAlerts]
    rintro ⟨-, hge⟩
    rw [show profitPct Action.SELL 2 (11 / 10) =
      (profitBase 2 - 11 / 10) / profitBase 2 from rfl] at hge
    norm_num [profitBase, defaultRule] at hge

/-- C7 (amended): for a monitored option with positive reference
premium `p` and present price `x`, the profit fraction of a short
(SELL) position is `(p − x)/p`, and a profit alert is emitted exactly
when the position is short and that fraction reaches the 50 % target;
long (BUY) positions never emit one.  Concretely, premium 2.00 with
price 0.90 yields 55 % and fires; price 1.10 yields 45 % (not −5 %)
and does not fire. -/
theorem C7_profit_amended (premium price delta : ℚ) (dte : ℤ) (hprem : 0 < premium) :
    profitPct Action.SELL premium price = (premium - price) / premium ∧
    (AlertKind.profit ∈ optionAlerts defaultRule Action.SELL premium (some price)
        (some delta) dte ↔ (premium - price) / premium ≥ 1 / 2) ∧
    (∀ (p2 x2 d2 : ℚ) (t2 : ℤ),
      AlertKind.profit ∉ optionAlerts defaultRule Action.BUY p2 (some x2) (some d2) t2) ∧
    profitPct Action.SELL 2 (9 / 10) = 11 / 20 ∧
    (∀ (d3 : ℚ) (t3 : ℤ),
      AlertKind.profit ∈ optionAlerts defaultRule Action.SELL 2 (some (9 / 10))
        (some d3) t3) ∧
    profitPct Action.SELL 2 (11 / 10) = 9 / 20 ∧
    (∀ (d3 : ℚ) (t3 : ℤ),
      AlertKind.profit ∉ optionAlerts defaultRule Action.SELL 2 (some (11 / 10))
        (some d3) t3) := by
  have hbase : profitBase premium = premium := by
    rw [profitBase, abs_of_pos hprem, if_neg (ne_of_gt hprem)]
  have hbase2 : profitBase 2 = 2 := by norm_num [profitBase]
  have hpct : profitPct Action.SELL premium price = (premium - price) / premium := by
    simp only [profitPct, hbase]
  refine ⟨hpct, ?_, ?_, ?_, ?_, ?_, ?_⟩
  · rw [profit_mem_optionAlerts, hpct]
    simp [defaultRule]
  · intro p2 x2 d2 t2
    rw [profit_mem_optionAlerts]
    rintro ⟨h, -⟩
    exact Action.noConfusion h
  · show (profitBase 2 - 9 / 10) / profitBase 2 = 11 / 20
    norm_num [profitBase]
  · intro d3 t3
    rw [profit_mem_optionAlerts]
    refine ⟨rfl, ?_⟩
    show (profitBase 2 - 9 / 10) / profitBase 2 ≥ defaultRule.profit_target
    norm_num [profitBase, defaultRule]
  · show (profitBase 2 - 11 / 10) / profitBase 2 = 9 / 20
    norm_num [profitBase]
  · intro d3 t3
    rw [profit_mem_optionAlerts]
    rintro ⟨-, hge⟩
    rw [show profitPct Action.SELL 2 (11 / 10) =
      (profitBase 2 - 11 / 10) / profitBase 2 from rfl] at hge
    norm_num [profitBase, defaultRule] at hge

/-- C7 witness: the amended theorem applied at premium 2, price 0.90,
delta 0.10, DTE 30 — the profit alert fires there. -/
theorem C7_profit_amended_witness :
    (0 : ℚ) < 2 ∧
    AlertKind.profit ∈ optionAlerts defaultRule Action.SELL 2 (some (9 / 10))
      (some (1 / 10)) 30 :=
  ⟨by norm_num,
    (C7_profit_amended 2 (9 / 10) (1 / 10) 30 (by norm_num)).2.2.2.2.1 (1 / 10) 30⟩

/-- C6 (counterexample): the claim says the volume fallback is
re-checked "exactly when" the resolved Eastern time is within a few
minutes after the 16:00 nominal close — but the code's guard is merely
`et.time() <= 16:05`, so at 09:00 (hours string saying closed, prior
state open) the fallback is consulted too: the outcome flips with the
fallback answer, and with nonzero volume the state stays open at a
time far before the close. -/
theorem C6_debounce_counterexample :
    (isMarketOpen ⟨true, none, none⟩ 0 (some ⟨2025, 7, 24, 9, 0⟩) 0 0 none
      (some "20250724:0930-1600") true).isOpen = true ∧
    (isMarketOpen ⟨true, none, none⟩ 0 (some ⟨2025, 7, 24, 9, 0⟩) 0 0 none
      (some "20250724:0930-1600") false).isOpen = false ∧
    timeNum ⟨2025, 7, 24, 9, 0⟩ = 900 ∧
    parseTradingHours "20250724:0930-1600" ⟨2025, 7, 24, 9, 0⟩ = false := by
  refine ⟨by decide, by decide, by decide, by decide⟩

theorem hoursDecision_parse_open (st1 : MarketStatus) (w : Bool) (et : EDT) (th : String)
    (rt : Bool) (hp : parseTradingHours th et = true) :
    hoursDecision st1 w et th rt = { st1 with isOpen := true } := by
  unfold hoursDecision
  rw [hp]
  simp

theorem hoursDecision_debounce_window (st1 : MarketStatus) (et : EDT) (th : String)
    (rt : Bool) (hp : parseTradingHours th et = false) (ht : timeNum et ≤ 1605) :
    hoursDecision st1 true et th rt =
      (if rt then { st1 with isOpen := true }
       else { st1 with isOpen := false, nextOpen := some (calcNextTradingDay et) }) := by
  unfold hoursDecision
  rw [hp]
  cases rt <;> simp [ht]

theorem hoursDecision_past_window (st1 : MarketStatus) (et : EDT) (th : String)
    (rt : Bool) (hp : parseTradingHours th et = false) (ht : ¬ timeNum et ≤ 1605) :
    hoursDecision st1 true et th rt =
      { st1 with isOpen := false, nextOpen := some (calcNextTradingDay et) } := by
  unfold hoursDecision
  rw [hp]
  simp [ht]

theorem isMarketOpen_hours (status : MarketStatus) (now nowMono ts : ℚ)
    (lastET : Option EDT) (th : String) (et : EDT) (rt : Bool)
    (hrate : ∀ lc, status.lastCheck = some lc → ¬ now - lc < 60)
    (hwk : weekday et < 5) :
    isMarketOpen status now (some et) nowMono ts lastET (some th) rt =
      hoursDecision { status with lastCheck := some now } status.isOpen et th rt := by
  have hcond : (match status.lastCheck with
      | some lc => decide (now - lc < 60)
      | none => false) = false := by
    cases hlc : status.lastCheck with
    | none => rfl
    | some lc => simpa using hrate lc hlc
  unfold isMarketOpen
  rw [hcond]
  simp only [Bool.false_eq_true, if_false]
  rw [if_neg (by omega)]

/-- C6 (amended): when the prior state was open and today's parsed
trading-hours ranges say closed, the recent-trade-volume fallback is
re-checked before committing to closed exactly when the resolved
Eastern time of day is at or before 16:05 (a guard that covers the few
minutes after the 16:00 nominal close but also any earlier time of
day), and the state stays open iff that fallback reports nonzero
volume; past 16:05 the state commits to closed without a re-check.
The scenario facts hold: hours string `"20250724:0930-1600"` at 10:00
gives open, and at 16:05 with prior state open gives closed unless the
volume fallback reports nonzero volume. -/
theorem C6_close_debounce :
    (∀ (status : MarketStatus) (now nowMono ts : ℚ) (lastET : Option EDT) (th : String)
       (et : EDT) (rt : Bool),
      (∀ lc, status.lastCheck = some lc → ¬ now - lc < 60) →
      status.isOpen = true →
      weekday et < 5 →
      parseTradingHours th et = false →
      ((timeNum et ≤ 1605 →
        (isMarketOpen status now (some et) nowMono ts lastET (some th) rt).isOpen = rt) ∧
       (¬ timeNum et ≤ 1605 →
        (isMarketOpen status now (some et) nowMono ts lastET (some th) rt).isOpen = false))) ∧
    (∀ (wasOpen isOpenNow : Bool) (et : EDT),
      debounceRecheck wasOpen isOpenNow et = true ↔
        (wasOpen = true ∧ isOpenNow = false ∧ timeNum et ≤ 1605)) ∧
    parseTradingHours "20250724:0930-1600" ⟨2025, 7, 24, 10, 0⟩ = true ∧
    (∀ (b : Bool) (no : Option EDT) (now nowMono ts : ℚ) (lastET : Option EDT) (rt : Bool),
      (isMarketOpen ⟨b, no, none⟩ now (some ⟨2025, 7, 24, 10, 0⟩) nowMono ts lastET
        (some "20250724:0930-1600") rt).isOpen = true) ∧
    parseTradingHours "20250724:0930-1600" ⟨2025, 7, 24, 16, 5⟩ = false ∧
    (∀ (no : Option EDT) (now nowMono ts : ℚ) (lastET : Option EDT) (rt : Bool),
      (isMarketOpen ⟨true, no, none⟩ now (some ⟨2025, 7, 24, 16, 5⟩) nowMono ts lastET
        (some "20250724:0930-1600") rt).isOpen = rt) := by
  refine ⟨?_, ?_, by decide, ?_, by decide, ?_⟩
  · intro status now nowMono ts lastET th et rt hrate hopen hwk hparse
    rw [isMarketOpen_hours status now nowMono ts lastET th et rt hrate hwk, hopen]
    constructor
    · intro htime
      rw [hoursDecision_debounce_window _ et th rt hparse htime]
      cases rt <;> simp
    · intro htime
      rw [hoursDecision_past_window _ et th rt hparse htime]
  · intro wasOpen isOpenNow et
    simp [debounceRecheck, and_assoc]
  · intro b no now nowMono ts lastET rt
    rw [isMarketOpen_hours ⟨b, no, none⟩ now nowMono ts lastET "20250724:0930-1600"
      ⟨2025, 7, 24, 10, 0⟩ rt (fun lc h => Option.noConfusion h) (by decide)]
    rw [hoursDecision_parse_open _ _ _ _ _ (by decide)]
  · intro no now nowMono ts lastET rt
    rw [isMarketOpen_hours ⟨true, no, none⟩ now nowMono ts lastET "20250724:0930-1600"
      ⟨2025, 7, 24, 16, 5⟩ rt (fun lc h => Option.noConfusion h) (by decide)]
    rw [hoursDecision_debounce_window _ _ _ rt (by decide) (by decide)]
    cases rt <;> simp

/-- C6 witness: the amended theorem's general part applied at the
16:05 boundary with nonzero volume — the state stays open. -/
theorem C6_close_debounce_witness :
    weekday ⟨2025, 7, 24, 16, 5⟩ < 5 ∧
    (isMarketOpen ⟨true, none, none⟩ 0 (some ⟨2025, 7, 24, 16, 5⟩) 0 0 none
      (some "20250724:0930-1600") true).isOpen = true :=
  ⟨by decide,
    ((C6_close_debounce.1 ⟨true, none, none⟩ 0 0 0 none "20250724:0930-1600"
        ⟨2025, 7, 24, 16, 5⟩ true (fun lc h => Option.noConfusion h) rfl (by decide)
        (by decide)).1 (by decide))⟩

theorem dispatchAlerts_single_sent (st : LedgerState) (msg aid : String)
    (h : ledgerHas st aid = true) : dispatchAlerts st [(msg, aid)] = (st, []) := by
  simp [dispatchAlerts, dispatchStep, h]

theorem dispatchAlerts_single_fresh (st : LedgerState) (msg aid : String)
    (h : ledgerHas st aid = false) :
    dispatchAlerts st [(msg, aid)] =
      ({ st with sentAlerts := st.sentAlerts ++ [(aid, st.tradingDate)] }, [msg]) := by
  simp [dispatchAlerts, dispatchStep, h]

theorem ledgerHas_record_self (st : LedgerState) (aid : String) (d : Nat) :
    ledgerHas { st with sentAlerts := st.sentAlerts ++ [(aid, d)] } aid = true := by
  simp [ledgerHas]

theorem runCycles_sent (st : LedgerState) (msg aid : String) (n : Nat)
    (h : ledgerHas st aid = true) : runCycles st (msg, aid) n = (st, 0) := by
  induction n with
  | zero => rfl
  | succ m ih =>
    unfold runCycles
    rw [dispatchAlerts_single_sent st msg aid h]
    simp [ih]

theorem runCycles_fresh (st : LedgerState) (msg aid : String) (n : Nat)
    (h : ledgerHas st aid = false) (hn : 1 ≤ n) :
    runCycles st (msg, aid) n =
      ({ st with sentAlerts := st.sentAlerts ++ [(aid, st.tradingDate)] }, 1) := by
  cases n with
  | zero => omega
  | succ m =>
    unfold runCycles
    rw [dispatchAlerts_single_fresh st msg aid h]
    simp [runCycles_sent _ msg aid m (ledgerHas_record_self st aid st.tradingDate)]

/-- C1: each condition's id is the deterministic
`kind + "_" + instrument-key + "_" + trading-date`; starting from a
ledger that does not yet contain that id, any number `m ≥ 1` of
monitoring cycles that each re-detect the condition within one trading
date delivers exactly one notification and records the id in the
ledger; a dispatch against a ledger already holding the id delivers
nothing; and after the trading date advances — which clears the
ledger — a further `m′ ≥ 1` cycles deliver exactly one more
notification. -/
theorem C1_dedup_once_per_day (kind key msg msg2 : String) (d d2 : Nat)
    (st : LedgerState) (m m2 : Nat)
    (hdate : st.tradingDate = d)
    (hfresh : ledgerHas st (uniqueId kind key d) = false)
    (hm : 1 ≤ m) (hm2 : 1 ≤ m2) (hdd : d2 ≠ d) :
    uniqueId kind key d = kind ++ "_" ++ key ++ "_" ++ toString d ∧
    (runCycles st (msg, uniqueId kind key d) m).2 = 1 ∧
    ledgerHas (runCycles st (msg, uniqueId kind key d) m).1 (uniqueId kind key d) = true ∧
    (∀ st2 : LedgerState, ledgerHas st2 (uniqueId kind key d) = true →
      dispatchAlerts st2 [(msg, uniqueId kind key d)] = (st2, [])) ∧
    (advanceTradingDate (runCycles st (msg, uniqueId kind key d) m).1 d2).sentAlerts = [] ∧
    (runCycles (advanceTradingDate (runCycles st (msg, uniqueId kind key d) m).1 d2)
      (msg2, uniqueId kind key d2) m2).2 = 1 := by
  rw [runCycles_fresh st msg (uniqueId kind key d) m hfresh hm]
  have hadv : advanceTradingDate
      ({ st with sentAlerts := st.sentAlerts ++ [(uniqueId kind key d, st.tradingDate)] },
        1).1 d2 = { sentAlerts := [], tradingDate := d2 } := by
    simp only [advanceTradingDate]
    rw [if_pos]
    show d2 ≠ st.tradingDate
    rw [hdate]
    exact hdd
  refine ⟨rfl, rfl, ledgerHas_record_self st _ st.tradingDate, ?_, ?_, ?_⟩
  · intro st2 h2
    exact dispatchAlerts_single_sent st2 msg (uniqueId kind key d) h2
  · rw [hadv]
  · rw [hadv]
    rw [runCycles_fresh _ msg2 (uniqueId kind key d2) m2 (by simp [ledgerHas]) hm2]

/-- C1 witness: the dedup theorem at a concrete profit-alert id over
trading dates 20250723 → 20250724 with two and three re-detecting
cycles. -/
theorem C1_dedup_once_per_day_witness :
    (runCycles ⟨[], 20250723⟩ ("m", uniqueId "profit" "SPY_PUT_560.0_20250815" 20250723)
      2).2 = 1 ∧
    (runCycles (advanceTradingDate
        (runCycles ⟨[], 20250723⟩ ("m", uniqueId "profit" "SPY_PUT_560.0_20250815" 20250723)
          2).1 20250724)
      ("m2", uniqueId "profit" "SPY_PUT_560.0_20250815" 20250724) 3).2 = 1 := by
  have h := C1_dedup_once_per_day "profit" "SPY_PUT_560.0_20250815" "m" "m2"
    20250723 20250724 ⟨[], 20250723⟩ 2 3 rfl (by decide) (by decide) (by decide) (by decide)
  exact ⟨h.2.1, h.2.2.2.2.2⟩

theorem tickOC_tickers (st : TickState) (reqId : Nat) (field : Option Nat)
    (i d g vg th u : PVal) :
    (tickOptionComputation st reqId field i d g vg th u).tickers =
      dset st.tickers reqId
        (greekBucket ((dget st.tickers reqId).getD [])
          (match field with | none => none | some f => sideOf f)
          (cleanGreek i) (cleanGreek d) (cleanGreek g) (cleanGreek vg) (cleanGreek th)
          (cleanGreek u)) := by
  unfold tickOptionComputation
  cases hk : dget st.streamKeyMap reqId <;> simp [hk]

theorem tickOC_invalid_frame (st : TickState) (reqId : Nat) (field : Option Nat)
    (ivR dR gR vgR thR uR : PVal) (bucket0 : Store)
    (hb : dget st.tickers reqId = some bucket0)
    (hiv : cleanGreek ivR = none) (hd : cleanGreek dR = none)
    (hg : cleanGreek gR = none) (hvg : cleanGreek vgR = none)
    (hth : cleanGreek thR = none) (hu : cleanGreek uR = none)
    (hstream : ∀ k, dget st.streamKeyMap reqId = some k →
      ∃ out0, dget st.streamData k = some out0 ∧
        ∀ key v, storeGet bucket0 key = some v → storeGet out0 key = some v) :
    tickOptionComputation st reqId field ivR dR gR vgR thR uR = st := by
  unfold tickOptionComputation
  simp only [hiv, hd, hg, hvg, hth, hu, hb, Option.getD_some, greekBucket_invalid]
  rw [dset_eq_of_dget st.tickers reqId bucket0 hb]
  cases hk : dget st.streamKeyMap reqId with
  | none => rfl
  | some k =>
    obtain ⟨out0, hout, hsync⟩ := hstream k hk
    simp only [hout, Option.getD_some]
    rw [streamSync_id bucket0 out0 _ hsync]
    rw [dset_eq_of_dget st.streamData k out0 hout]

theorem storeGet_syncKey_ne (bucket out : Store) (k key : String) (h : k ≠ key) :
    storeGet (syncKey bucket out k) key = storeGet out key := by
  unfold syncKey
  cases storeGet bucket k with
  | none => rfl
  | some v => exact dget_dset_ne out k key v h

theorem storeGet_syncKey_self (bucket out : Store) (key : String) :
    storeGet (syncKey bucket out key) key =
      match storeGet bucket key with
      | some v => some v
      | none => storeGet out key := by
  unfold syncKey
  cases hb : storeGet bucket key with
  | none => rfl
  | some v => exact dget_dset_self out key v

theorem storeGet_foldl_syncKey (bucket : Store) (keys : List String) (out : Store)
    (key : String) :
    storeGet (keys.foldl (syncKey bucket) out) key =
      (if key ∈ keys then
        (match storeGet bucket key with
         | some v => some v
         | none => storeGet out key)
       else storeGet out key) := by
  induction keys generalizing out with
  | nil => simp
  | cons k ks ih =>
    rw [List.foldl_cons, ih (syncKey bucket out k)]
    by_cases hk : k = key
    · subst hk
      have hself := storeGet_syncKey_self bucket out k
      cases hb : storeGet bucket k with
      | some v =>
        rw [hb] at hself
        by_cases hmem : k ∈ ks <;> simp [hmem, hb, hself]
      | none =>
        rw [hb] at hself
        by_cases hmem : k ∈ ks <;> simp [hmem, hb, hself]
    · have hne := storeGet_syncKey_ne bucket out k key hk
      cases hb : storeGet bucket key with
      | some v =>
        by_cases hmem : key ∈ ks <;> simp [hmem, hb, hne, Ne.symm hk]
      | none =>
        by_cases hmem : key ∈ ks <;> simp [hmem, hb, hne, Ne.symm hk]

theorem tickOC_streamData_unsub (st : TickState) (reqId : Nat) (field : Option Nat)
    (ivR dR gR vgR thR uR : PVal) (h : dget st.streamKeyMap reqId = none) :
    (tickOptionComputation st reqId field ivR dR gR vgR thR uR).streamData =
      st.streamData := by
  unfold tickOptionComputation
  simp [h]

theorem tickOC_streamData_sub (st : TickState) (reqId : Nat) (field : Option Nat)
    (ivR dR gR vgR thR uR : PVal) (k : String) (h : dget st.streamKeyMap reqId = some k) :
    (tickOptionComputation st reqId field ivR dR gR vgR thR uR).streamData =
      dset st.streamData k
        (streamSync
          (greekBucket ((dget st.tickers reqId).getD [])
            (match field with | none => none | some f => sideOf f)
            (cleanGreek ivR) (cleanGreek dR) (cleanGreek gR) (cleanGreek vgR)
            (cleanGreek thR) (cleanGreek uR))
          ((dget st.streamData k).getD [])
          (match field with | none => none | some f => sideOf f)) := by
  unfold tickOptionComputation
  simp [h]

theorem key_iv_not_mem_sideKeys (s : String) : "iv" ∉ sideKeys s := by
  intro h
  simp only [sideKeys, List.mem_cons, List.not_mem_nil, or_false] at h
  rcases h with h | h | h | h | h
  · exact str_append_ne s "_iv" "iv" (by decide) h.symm
  · exact str_append_ne s "_delta" "iv" (by decide) h.symm
  · exact str_append_ne s "_gamma" "iv" (by decide) h.symm
  · exact str_append_ne s "_vega" "iv" (by decide) h.symm
  · exact str_append_ne s "_theta" "iv" (by decide) h.symm

theorem streamSync_get_iv (bucket out0 : Store) (side : Option String) :
    storeGet (streamSync bucket out0 side) "iv" =
      (match storeGet bucket "iv" with
       | some v => some v
       | none => storeGet out0 "iv") := by
  unfold streamSync
  cases side with
  | none =>
    rw [storeGet_foldl_syncKey]
    simp [greekKeys]
  | some s =>
    rw [storeGet_foldl_syncKey, if_neg (key_iv_not_mem_sideKeys s), storeGet_foldl_syncKey]
    simp [greekKeys]

theorem tickOC_stream_get_iv (st : TickState) (reqId : Nat) (field : Option Nat)
    (ivR dR gR vgR thR uR : PVal) (k : String)
    (hsub : dget st.streamKeyMap reqId = some k) :
    storeGet ((dget (tickOptionComputation st reqId field ivR dR gR vgR thR uR).streamData
        k).getD []) "iv" =
      (match cleanGreek ivR with
       | some v => some (some v)
       | none =>
         match storeGet ((dget st.tickers reqId).getD []) "iv" with
         | some w => some w
         | none => storeGet ((dget st.streamData k).getD []) "iv") := by
  rw [tickOC_streamData_sub st reqId field ivR dR gR vgR thR uR k hsub, dget_dset_self]
  simp only [Option.getD_some]
  rw [streamSync_get_iv, greekBucket_get_iv]
  cases cleanGreek ivR <;> rfl

theorem tickOC_stream_frame_iv (st : TickState) (reqId : Nat) (field : Option Nat)
    (ivR dR gR vgR thR uR : PVal) (k : String)
    (hsub : dget st.streamKeyMap reqId = some k)
    (hinv : cleanGreek ivR = none)
    (hagree : ∀ w, storeGet ((dget st.tickers reqId).getD []) "iv" = some w →
      storeGet ((dget st.streamData k).getD []) "iv" = some w) :
    storeGet ((dget (tickOptionComputation st reqId field ivR dR gR vgR thR uR).streamData
        k).getD []) "iv" = storeGet ((dget st.streamData k).getD []) "iv" := by
  rw [tickOC_stream_get_iv st reqId field ivR dR gR vgR thR uR k hsub, hinv]
  cases hb : storeGet ((dget st.tickers reqId).getD []) "iv" with
  | none => rfl
  | some w => exact (hagree w hb).symm

theorem key_delta_not_mem_sideKeys (s : String) : "delta" ∉ sideKeys s := by
  intro h
  simp only [sideKeys, List.mem_cons, List.not_mem_nil, or_false] at h
  rcases h with h | h | h | h | h
  · exact str_append_ne s "_iv" "delta" (by decide) h.symm
  · exact str_append_ne s "_delta" "delta" (by decide) h.symm
  · exact str_append_ne s "_gamma" "delta" (by decide) h.symm
  · exact str_append_ne s "_vega" "delta" (by decide) h.symm
  · exact str_append_ne s "_theta" "delta" (by decide) h.symm

theorem streamSync_get_delta (bucket out0 : Store) (side : Option String) :
    storeGet (streamSync bucket out0 side) "delta" =
      (match storeGet bucket "delta" with
       | some v => some v
       | none => storeGet out0 "delta") := by
  unfold streamSync
  cases side with
  | none =>
    rw [storeGet_foldl_syncKey]
    simp [greekKeys]
  | some s =>
    rw [storeGet_foldl_syncKey, if_neg (key_delta_not_mem_sideKeys s), storeGet_foldl_syncKey]
    simp [greekKeys]

theorem tickOC_stream_get_delta (st : TickState) (reqId : Nat) (field : Option Nat)
    (ivR dR gR vgR thR uR : PVal) (k : String)
    (hsub : dget st.streamKeyMap reqId = some k) :
    storeGet ((dget (tickOptionComputation st reqId field ivR dR gR vgR thR uR).streamData
        k).getD []) "delta" =
      (match cleanGreek dR with
       | some v => some (some v)
       | none =>
         match storeGet ((dget st.tickers reqId).getD []) "delta" with
         | some w => some w
         | none => storeGet ((dget st.streamData k).getD []) "delta") := by
  rw [tickOC_streamData_sub st reqId field ivR dR gR vgR thR uR k hsub, dget_dset_self]
  simp only [Option.getD_some]
  rw [streamSync_get_delta, greekBucket_get_delta]
  cases cleanGreek dR <;> rfl

theorem tickOC_stream_frame_delta (st : TickState) (reqId : Nat) (field : Option Nat)
    (ivR dR gR vgR thR uR : PVal) (k : String)
    (hsub : dget st.streamKeyMap reqId = some k)
    (hinv : cleanGreek dR = none)
    (hagree : ∀ w, storeGet ((dget st.tickers reqId).getD []) "delta" = some w →
      storeGet ((dget st.streamData k).getD []) "delta" = some w) :
    storeGet ((dget (tickOptionComputation st reqId field ivR dR gR vgR thR uR).streamData
        k).getD []) "delta" = storeGet ((dget st.streamData k).getD []) "delta" := by
  rw [tickOC_stream_get_delta st reqId field ivR dR gR vgR thR uR k hsub, hinv]
  cases hb : storeGet ((dget st.tickers reqId).getD []) "delta" with
  | none => rfl
  | some w => exact (hagree w hb).symm

theorem key_gamma_not_mem_sideKeys (s : String) : "gamma" ∉ sideKeys s := by
  intro h
  simp only [sideKeys, List.mem_cons, List.not_mem_nil, or_false] at h
  rcases h with h | h | h | h | h
  · exact str_append_ne s "_iv" "gamma" (by decide) h.symm
  · exact str_append_ne s "_delta" "gamma" (by decide) h.symm
  · exact str_append_ne s "_gamma" "gamma" (by decide) h.symm
  · exact str_append_ne s "_vega" "gamma" (by decide) h.symm
  · exact str_append_ne s "_theta" "gamma" (by decide) h.symm

theorem streamSync_get_gamma (bucket out0 : Store) (side : Option String) :
    storeGet (streamSync bucket out0 side) "gamma" =
      (match storeGet bucket "gamma" with
       | some v => some v
       | none => storeGet out0 "gamma") := by
  unfold streamSync
  cases side with
  | none =>
    rw [storeGet_foldl_syncKey]
    simp [greekKeys]
  | some s =>
    rw [storeGet_foldl_syncKey, if_neg (key_gamma_not_mem_sideKeys s), storeGet_foldl_syncKey]
    simp [greekKeys]

theorem tickOC_stream_get_gamma (st : TickState) (reqId : Nat) (field : Option Nat)
    (ivR dR gR vgR thR uR : PVal) (k : String)
    (hsub : dget st.streamKeyMap reqId = some k) :
    storeGet ((dget (tickOptionComputation st reqId field ivR dR gR vgR thR uR).streamData
        k).getD []) "gamma" =
      (match cleanGreek gR with
       | some v => some (some v)
       | none =>
         match storeGet ((dget st.tickers reqId).getD []) "gamma" with
         | some w => some w
         | none => storeGet ((dget st.streamData k).getD []) "gamma") := by
  rw [tickOC_streamData_sub st reqId field ivR dR gR vgR thR uR k hsub, dget_dset_self]
  simp only [Option.getD_some]
  rw [streamSync_get_gamma, greekBucket_get_gamma]
  cases cleanGreek gR <;> rfl

theorem tickOC_stream_frame_gamma (st : TickState) (reqId : Nat) (field : Option Nat)
    (ivR dR gR vgR thR uR : PVal) (k : String)
    (hsub : dget st.streamKeyMap reqId = some k)
    (hinv : cleanGreek gR = none)
    (hagree : ∀ w, storeGet ((dget st.tickers reqId).getD []) "gamma" = some w →
      storeGet ((dget st.streamData k).getD []) "gamma" = some w) :
    storeGet ((dget (tickOptionComputation st reqId field ivR dR gR vgR thR uR).streamData
        k).getD []) "gamma" = storeGet ((dget st.streamData k).getD []) "gamma" := by
  rw [tickOC_stream_get_gamma st reqId field ivR dR gR vgR thR uR k hsub, hinv]
  cases hb : storeGet ((dget st.tickers reqId).getD []) "gamma" with
  | none => rfl
  | some w => exact (hagree w hb).symm

theorem key_vega_not_mem_sideKeys (s : String) : "vega" ∉ sideKeys s := by
  intro h
  simp only [sideKeys, List.mem_cons, List.not_mem_nil, or_false] at h
  rcases h with h | h | h | h | h
  · exact str_append_ne s "_iv" "vega" (by decide) h.symm
  · exact str_append_ne s "_delta" "vega" (by decide) h.symm
  · exact str_append_ne s "_gamma" "vega" (by decide) h.symm
  · exact str_append_ne s "_vega" "vega" (by decide) h.symm
  · exact str_append_ne s "_theta" "vega" (by decide) h.symm

theorem streamSync_get_vega (bucket out0 : Store) (side : Option String) :
    storeGet (streamSync bucket out0 side) "vega" =
      (match storeGet bucket "vega" with
       | some v => some v
       | none => storeGet out0 "vega") := by
  unfold streamSync
  cases side with
  | none =>
    rw [storeGet_foldl_syncKey]
    simp [greekKeys]
  | some s =>
    rw [storeGet_foldl_syncKey, if_neg (key_vega_not_mem_sideKeys s), storeGet_foldl_syncKey]
    simp [greekKeys]

theorem tickOC_stream_get_vega (st : TickState) (reqId : Nat) (field : Option Nat)
    (ivR dR gR vgR thR uR : PVal) (k : String)
    (hsub : dget st.streamKeyMap reqId = some k) :
    storeGet ((dget (tickOptionComputation st reqId field ivR dR gR vgR thR uR).streamData
        k).getD []) "vega" =
      (match cleanGreek vgR with
       | some v => some (some v)
       | none =>
         match storeGet ((dget st.tickers reqId).getD []) "vega" with
         | some w => some w
         | none => storeGet ((dget st.streamData k).getD []) "vega") := by
  rw [tickOC_streamData_sub st reqId field ivR dR gR vgR thR uR k hsub, dget_dset_self]
  simp only [Option.getD_some]
  rw [streamSync_get_vega, greekBucket_get_vega]
  cases cleanGreek vgR <;> rfl

theorem tickOC_stream_frame_vega (st : TickState) (reqId : Nat) (field : Option Nat)
    (ivR dR gR vgR thR uR : PVal) (k : String)
    (hsub : dget st.streamKeyMap reqId = some k)
    (hinv : cleanGreek vgR = none)
    (hagree : ∀ w, storeGet ((dget st.tickers reqId).getD []) "vega" = some w →
      storeGet ((dget st.streamData k).getD []) "vega" = some w) :
    storeGet ((dget (tickOptionComputation st reqId field ivR dR gR vgR thR uR).streamData
        k).getD []) "vega" = storeGet ((dget st.streamData k).getD []) "vega" := by
  rw [tickOC_stream_get_vega st reqId field ivR dR gR vgR thR uR k hsub, hinv]
  cases hb : storeGet ((dget st.tickers reqId).getD []) "vega" with
  | none => rfl
  | some w => exact (hagree w hb).symm

theorem key_theta_not_mem_sideKeys (s : String) : "theta" ∉ sideKeys s := by
  intro h
  simp only [sideKeys, List.mem_cons, List.not_mem_nil, or_false] at h
  rcases h with h | h | h | h | h
  · exact str_append_ne s "_iv" "theta" (by decide) h.symm
  · exact str_append_ne s "_delta" "theta" (by decide) h.symm
  · exact str_append_ne s "_gamma" "theta" (by decide) h.symm
  · exact str_append_ne s "_vega" "theta" (by decide) h.symm
  · exact str_append_ne s "_theta" "theta" (by decide) h.symm

theorem streamSync_get_theta (bucket out0 : Store) (side : Option String) :
    storeGet (streamSync bucket out0 side) "theta" =
      (match storeGet bucket "theta" with
       | some v => some v
       | none => storeGet out0 "theta") := by
  unfold streamSync
  cases side with
  | none =>
    rw [storeGet_foldl_syncKey]
    simp [greekKeys]
  | some s =>
    rw [storeGet_foldl_syncKey, if_neg (key_theta_not_mem_sideKeys s), storeGet_foldl_syncKey]
    simp [greekKeys]

theorem tickOC_stream_get_theta (st : TickState) (reqId : Nat) (field : Option Nat)
    (ivR dR gR vgR thR uR : PVal) (k : String)
    (hsub : dget st.streamKeyMap reqId = some k) :
    storeGet ((dget (tickOptionComputation st reqId field ivR dR gR vgR thR uR).streamData
        k).getD []) "theta" =
      (match cleanGreek thR with
       | some v => some (some v)
       | none =>
         match storeGet ((dget st.tickers reqId).getD []) "theta" with
         | some w => some w
         | none => storeGet ((dget st.streamData k).getD []) "theta") := by
  rw [tickOC_streamData_sub st reqId field ivR dR gR vgR thR uR k hsub, dget_dset_self]
  simp only [Option.getD_some]
  rw [streamSync_get_theta, greekBucket_get_theta]
  cases cleanGreek thR <;> rfl

theorem tickOC_stream_frame_theta (st : TickState) (reqId : Nat) (field : Option Nat)
    (ivR dR gR vgR thR uR : PVal) (k : String)
    (hsub : dget st.streamKeyMap reqId = some k)
    (hinv : cleanGreek thR = none)
    (hagree : ∀ w, storeGet ((dget st.tickers reqId).getD []) "theta" = some w →
      storeGet ((dget st.streamData k).getD []) "theta" = some w) :
    storeGet ((dget (tickOptionComputation st reqId field ivR dR gR vgR thR uR).streamData
        k).getD []) "theta" = storeGet ((dget st.streamData k).getD []) "theta" := by
  rw [tickOC_stream_get_theta st reqId field ivR dR gR vgR thR uR k hsub, hinv]
  cases hb : storeGet ((dget st.tickers reqId).getD []) "theta" with
  | none => rfl
  | some w => exact (hagree w hb).symm

theorem key_undPx_not_mem_sideKeys (s : String) : "undPx" ∉ sideKeys s := by
  intro h
  simp only [sideKeys, List.mem_cons, List.not_mem_nil, or_false] at h
  rcases h with h | h | h | h | h
  · exact str_append_ne s "_iv" "undPx" (by decide) h.symm
  · exact str_append_ne s "_delta" "undPx" (by decide) h.symm
  · exact str_append_ne s "_gamma" "undPx" (by decide) h.symm
  · exact str_append_ne s "_vega" "undPx" (by decide) h.symm
  · exact str_append_ne s "_theta" "undPx" (by decide) h.symm

theorem streamSync_get_undPx (bucket out0 : Store) (side : Option String) :
    storeGet (streamSync bucket out0 side) "undPx" =
      (match storeGet bucket "undPx" with
       | some v => some v
       | none => storeGet out0 "undPx") := by
  unfold streamSync
  cases side with
  | none =>
    rw [storeGet_foldl_syncKey]
    simp [greekKeys]
  | some s =>
    rw [storeGet_foldl_syncKey, if_neg (key_undPx_not_mem_sideKeys s), storeGet_foldl_syncKey]
    simp [greekKeys]

theorem tickOC_stream_get_undPx (st : TickState) (reqId : Nat) (field : Option Nat)
    (ivR dR gR vgR thR uR : PVal) (k : String)
    (hsub : dget st.streamKeyMap reqId = some k) :
    storeGet ((dget (tickOptionComputation st reqId field ivR dR gR vgR thR uR).streamData
        k).getD []) "undPx" =
      (match cleanGreek uR with
       | some v => some (some v)
       | none =>
         match storeGet ((dget st.tickers reqId).getD []) "undPx" with
         | some w => some w
         | none => storeGet ((dget st.streamData k).getD []) "undPx") := by
  rw [tickOC_streamData_sub st reqId field ivR dR gR vgR thR uR k hsub, dget_dset_self]
  simp only [Option.getD_some]
  rw [streamSync_get_undPx, greekBucket_get_undPx]
  cases cleanGreek uR <;> rfl

theorem tickOC_stream_frame_undPx (st : TickState) (reqId : Nat) (field : Option Nat)
    (ivR dR gR vgR thR uR : PVal) (k : String)
    (hsub : dget st.streamKeyMap reqId = some k)
    (hinv : cleanGreek uR = none)
    (hagree : ∀ w, storeGet ((dget st.tickers reqId).getD []) "undPx" = some w →
      storeGet ((dget st.streamData k).getD []) "undPx" = some w) :
    storeGet ((dget (tickOptionComputation st reqId field ivR dR gR vgR thR uR).streamData
        k).getD []) "undPx" = storeGet ((dget st.streamData k).getD []) "undPx" := by
  rw [tickOC_stream_get_undPx st reqId field ivR dR gR vgR thR uR k hsub, hinv]
  cases hb : storeGet ((dget st.tickers reqId).getD []) "undPx" with
  | none => rfl
  | some w => exact (hagree w hb).symm

theorem side_iv_not_mem_greekKeys (s : String) : s ++ "_iv" ∉ greekKeys := by
  intro h
  simp only [greekKeys, List.mem_cons, List.not_mem_nil, or_false] at h
  rcases h with h | h | h | h | h | h
  · exact str_append_ne s "_iv" "iv" (by decide) h
  · exact str_append_ne s "_iv" "delta" (by decide) h
  · exact str_append_ne s "_iv" "gamma" (by decide) h
  · exact str_append_ne s "_iv" "vega" (by decide) h
  · exact str_append_ne s "_iv" "theta" (by decide) h
  · exact str_append_ne s "_iv" "undPx" (by decide) h

theorem streamSync_get_side_iv (bucket out0 : Store) (s : String) :
    storeGet (streamSync bucket out0 (some s)) (s ++ "_iv") =
      (match storeGet bucket (s ++ "_iv") with
       | some v => some v
       | none => storeGet out0 (s ++ "_iv")) := by
  unfold streamSync
  rw [storeGet_foldl_syncKey]
  rw [if_pos (by simp [sideKeys])]
  rw [storeGet_foldl_syncKey, if_neg (side_iv_not_mem_greekKeys s)]

theorem tickOC_stream_get_side_iv (st : TickState) (reqId : Nat) (f : Nat)
    (s : String) (ivR dR gR vgR thR uR : PVal) (k : String)
    (hsub : dget st.streamKeyMap reqId = some k) (hside : sideOf f = some s) :
    storeGet ((dget (tickOptionComputation st reqId (some f) ivR dR gR vgR thR uR).streamData
        k).getD []) (s ++ "_iv") =
      (match cleanGreek ivR with
       | some v => some (some v)
       | none =>
         match storeGet ((dget st.tickers reqId).getD []) (s ++ "_iv") with
         | some w => some w
         | none => storeGet ((dget st.streamData k).getD []) (s ++ "_iv")) := by
  rw [tickOC_streamData_sub st reqId (some f) ivR dR gR vgR thR uR k hsub, dget_dset_self]
  simp only [Option.getD_some, hside]
  rw [streamSync_get_side_iv, greekBucket_get_side_iv]
  cases cleanGreek ivR <;> rfl

theorem tickOC_stream_frame_side_iv (st : TickState) (reqId : Nat) (f : Nat)
    (s : String) (ivR dR gR vgR thR uR : PVal) (k : String)
    (hsub : dget st.streamKeyMap reqId = some k) (hside : sideOf f = some s)
    (hinv : cleanGreek ivR = none)
    (hagree : ∀ w, storeGet ((dget st.tickers reqId).getD []) (s ++ "_iv") = some w →
      storeGet ((dget st.streamData k).getD []) (s ++ "_iv") = some w) :
    storeGet ((dget (tickOptionComputation st reqId (some f) ivR dR gR vgR thR uR).streamData
        k).getD []) (s ++ "_iv") =
      storeGet ((dget st.streamData k).getD []) (s ++ "_iv") := by
  rw [tickOC_stream_get_side_iv st reqId f s ivR dR gR vgR thR uR k hsub hside, hinv]
  cases hb : storeGet ((dget st.tickers reqId).getD []) (s ++ "_iv") with
  | none => rfl
  | some w => exact (hagree w hb).symm

theorem side_delta_not_mem_greekKeys (s : String) : s ++ "_delta" ∉ greekKeys := by
  intro h
  simp only [greekKeys, List.mem_cons, List.not_mem_nil, or_false] at h
  rcases h with h | h | h | h | h | h
  · exact str_append_ne s "_delta" "iv" (by decide) h
  · exact str_append_ne s "_delta" "delta" (by decide) h
  · exact str_append_ne s "_delta" "gamma" (by decide) h
  · exact str_append_ne s "_delta" "vega" (by decide) h
  · exact str_append_ne s "_delta" "theta" (by decide) h
  · exact str_append_ne s "_delta" "undPx" (by decide) h

theorem streamSync_get_side_delta (bucket out0 : Store) (s : String) :
    storeGet (streamSync bucket out0 (some s)) (s ++ "_delta") =
      (match storeGet bucket (s ++ "_delta") with
       | some v => some v
       | none => storeGet out0 (s ++ "_delta")) := by
  unfold streamSync
  rw [storeGet_foldl_syncKey]
  rw [if_pos (by simp [sideKeys])]
  rw [storeGet_foldl_syncKey, if_neg (side_delta_not_mem_greekKeys s)]

theorem tickOC_stream_get_side_delta (st : TickState) (reqId : Nat) (f : Nat)
    (s : String) (ivR dR gR vgR thR uR : PVal) (k : String)
    (hsub : dget st.streamKeyMap reqId = some k) (hside : sideOf f = some s) :
    storeGet ((dget (tickOptionComputation st reqId (some f) ivR dR gR vgR thR uR).streamData
        k).getD []) (s ++ "_delta") =
      (match cleanGreek dR with
       | some v => some (some v)
       | none =>
         match storeGet ((dget st.tickers reqId).getD []) (s ++ "_delta") with
         | some w => some w
         | none => storeGet ((dget st.streamData k).getD []) (s ++ "_delta")) := by
  rw [tickOC_streamData_sub st reqId (some f) ivR dR gR vgR thR uR k hsub, dget_dset_self]
  simp only [Option.getD_some, hside]
  rw [streamSync_get_side_delta, greekBucket_get_side_delta]
  cases cleanGreek dR <;> rfl

theorem tickOC_stream_frame_side_delta (st : TickState) (reqId : Nat) (f : Nat)
    (s : String) (ivR dR gR vgR thR uR : PVal) (k : String)
    (hsub : dget st.streamKeyMap reqId = some k) (hside : sideOf f = some s)
    (hinv : cleanGreek dR = none)
    (hagree : ∀ w, storeGet ((dget st.tickers reqId).getD []) (s ++ "_delta") = some w →
      storeGet ((dget st.streamData k).getD []) (s ++ "_delta") = some w) :
    storeGet ((dget (tickOptionComputation st reqId (some f) ivR dR gR vgR thR uR).streamData
        k).getD []) (s ++ "_delta") =
      storeGet ((dget st.streamData k).getD []) (s ++ "_delta") := by
  rw [tickOC_stream_get_side_delta st reqId f s ivR dR gR vgR thR uR k hsub hside, hinv]
  cases hb : storeGet ((dget st.tickers reqId).getD []) (s ++ "_delta") with
  | none => rfl
  | some w => exact (hagree w hb).symm

theorem side_gamma_not_mem_greekKeys (s : String) : s ++ "_gamma" ∉ greekKeys := by
  intro h
  simp only [greekKeys, List.mem_cons, List.not_mem_nil, or_false] at h
  rcases h with h | h | h | h | h | h
  · exact str_append_ne s "_gamma" "iv" (by decide) h
  · exact str_append_ne s "_gamma" "delta" (by decide) h
  · exact str_append_ne s "_gamma" "gamma" (by decide) h
  · exact str_append_ne s "_gamma" "vega" (by decide) h
  · exact str_append_ne s "_gamma" "theta" (by decide) h
  · exact str_append_ne s "_gamma" "undPx" (by decide) h

theorem streamSync_get_side_gamma (bucket out0 : Store) (s : String) :
    storeGet (streamSync bucket out0 (some s)) (s ++ "_gamma") =
      (match storeGet bucket (s ++ "_gamma") with
       | some v => some v
       | none => storeGet out0 (s ++ "_gamma")) := by
  unfold streamSync
  rw [storeGet_foldl_syncKey]
  rw [if_pos (by simp [sideKeys])]
  rw [storeGet_foldl_syncKey, if_neg (side_gamma_not_mem_greekKeys s)]

theorem tickOC_stream_get_side_gamma (st : TickState) (reqId : Nat) (f : Nat)
    (s : String) (ivR dR gR vgR thR uR : PVal) (k : String)
    (hsub : dget st.streamKeyMap reqId = some k) (hside : sideOf f = some s) :
    storeGet ((dget (tickOptionComputation st reqId (some f) ivR dR gR vgR thR uR).streamData
        k).getD []) (s ++ "_gamma") =
      (match cleanGreek gR with
       | some v => some (some v)
       | none =>
         match storeGet ((dget st.tickers reqId).getD []) (s ++ "_gamma") with
         | some w => some w
         | none => storeGet ((dget st.streamData k).getD []) (s ++ "_gamma")) := by
  rw [tickOC_streamData_sub st reqId (some f) ivR dR gR vgR thR uR k hsub, dget_dset_self]
  simp only [Option.getD_some, hside]
  rw [streamSync_get_side_gamma, greekBucket_get_side_gamma]
  cases cleanGreek gR <;> rfl

theorem tickOC_stream_frame_side_gamma (st : TickState) (reqId : Nat) (f : Nat)
    (s : String) (ivR dR gR vgR thR uR : PVal) (k : String)
    (hsub : dget st.streamKeyMap reqId = some k) (hside : sideOf f = some s)
    (hinv : cleanGreek gR = none)
    (hagree : ∀ w, storeGet ((dget st.tickers reqId).getD []) (s ++ "_gamma") = some w →
      storeGet ((dget st.streamData k).getD []) (s ++ "_gamma") = some w) :
    storeGet ((dget (tickOptionComputation st reqId (some f) ivR dR gR vgR thR uR).streamData
        k).getD []) (s ++ "_gamma") =
      storeGet ((dget st.streamData k).getD []) (s ++ "_gamma") := by
  rw [tickOC_stream_get_side_gamma st reqId f s ivR dR gR vgR thR uR k hsub hside, hinv]
  cases hb : storeGet ((dget st.tickers reqId).getD []) (s ++ "_gamma") with
  | none => rfl
  | some w => exact (hagree w hb).symm

theorem side_vega_not_mem_greekKeys (s : String) : s ++ "_vega" ∉ greekKeys := by
  intro h
  simp only [greekKeys, List.mem_cons, List.not_mem_nil, or_false] at h
  rcases h with h | h | h | h | h | h
  · exact str_append_ne s "_vega" "iv" (by decide) h
  · exact str_append_ne s "_vega" "delta" (by decide) h
  · exact str_append_ne s "_vega" "gamma" (by decide) h
  · exact str_append_ne s "_vega" "vega" (by decide) h
  · exact str_append_ne s "_vega" "theta" (by decide) h
  · exact str_append_ne s "_vega" "undPx" (by decide) h

theorem streamSync_get_side_vega (bucket out0 : Store) (s : String) :
    storeGet (streamSync bucket out0 (some s)) (s ++ "_vega") =
      (match storeGet bucket (s ++ "_vega") with
       | some v => some v
       | none => storeGet out0 (s ++ "_vega")) := by
  unfold streamSync
  rw [storeGet_foldl_syncKey]
  rw [if_pos (by simp [sideKeys])]
  rw [storeGet_foldl_syncKey, if_neg (side_vega_not_mem_greekKeys s)]

theorem tickOC_stream_get_side_vega (st : TickState) (reqId : Nat) (f : Nat)
    (s : String) (ivR dR gR vgR thR uR : PVal) (k : String)
    (hsub : dget st.streamKeyMap reqId = some k) (hside : sideOf f = some s) :
    storeGet ((dget (tickOptionComputation st reqId (some f) ivR dR gR vgR thR uR).streamData
        k).getD []) (s ++ "_vega") =
      (match cleanGreek vgR with
       | some v => some (some v)
       | none =>
         match storeGet ((dget st.tickers reqId).getD []) (s ++ "_vega") with
         | some w => some w
         | none => storeGet ((dget st.streamData k).getD []) (s ++ "_vega")) := by
  rw [tickOC_streamData_sub st reqId (some f) ivR dR gR vgR thR uR k hsub, dget_dset_self]
  simp only [Option.getD_some, hside]
  rw [streamSync_get_side_vega, greekBucket_get_side_vega]
  cases cleanGreek vgR <;> rfl

theorem tickOC_stream_frame_side_vega (st : TickState) (reqId : Nat) (f : Nat)
    (s : String) (ivR dR gR vgR thR uR : PVal) (k : String)
    (hsub : dget st.streamKeyMap reqId = some k) (hside : sideOf f = some s)
    (hinv : cleanGreek vgR = none)
    (hagree : ∀ w, storeGet ((dget st.tickers reqId).getD []) (s ++ "_vega") = some w →
      storeGet ((dget st.streamData k).getD []) (s ++ "_vega") = some w) :
    storeGet ((dget (tickOptionComputation st reqId (some f) ivR dR gR vgR thR uR).streamData
        k).getD []) (s ++ "_vega") =
      storeGet ((dget st.streamData k).getD []) (s ++ "_vega") := by
  rw [tickOC_stream_get_side_vega st reqId f s ivR dR gR vgR thR uR k hsub hside, hinv]
  cases hb : storeGet ((dget st.tickers reqId).getD []) (s ++ "_vega") with
  | none => rfl
  | some w => exact (hagree w hb).symm

theorem side_theta_not_mem_greekKeys (s : String) : s ++ "_theta" ∉ greekKeys := by
  intro h
  simp only [greekKeys, List.mem_cons, List.not_mem_nil, or_false] at h
  rcases h with h | h | h | h | h | h
  · exact str_append_ne s "_theta" "iv" (by decide) h
  · exact str_append_ne s "_theta" "delta" (by decide) h
  · exact str_append_ne s "_theta" "gamma" (by decide) h
  · exact str_append_ne s "_theta" "vega" (by decide) h
  · exact str_append_ne s "_theta" "theta" (by decide) h
  · exact str_append_ne s "_theta" "undPx" (by decide) h

theorem streamSync_get_side_theta (bucket out0 : Store) (s : String) :
    storeGet (streamSync bucket out0 (some s)) (s ++ "_theta") =
      (match storeGet bucket (s ++ "_theta") with
       | some v => some v
       | none => storeGet out0 (s ++ "_theta")) := by
  unfold streamSync
  rw [storeGet_foldl_syncKey]
  rw [if_pos (by simp [sideKeys])]
  rw [storeGet_foldl_syncKey, if_neg (side_theta_not_mem_greekKeys s)]

theorem tickOC_stream_get_side_theta (st : TickState) (reqId : Nat) (f : Nat)
    (s : String) (ivR dR gR vgR thR uR : PVal) (k : String)
    (hsub : dget st.streamKeyMap reqId = some k) (hside : sideOf f = some s) :
    storeGet ((dget (tickOptionComputation st reqId (some f) ivR dR gR vgR thR uR).streamData
        k).getD []) (s ++ "_theta") =
      (match cleanGreek thR with
       | some v => some (some v)
       | none =>
         match storeGet ((dget st.tickers reqId).getD []) (s ++ "_theta") with
         | some w => some w
         | none => storeGet ((dget st.streamData k).getD []) (s ++ "_theta")) := by
  rw [tickOC_streamData_sub st reqId (some f) ivR dR gR vgR thR uR k hsub, dget_dset_self]
  simp only [Option.getD_some, hside]
  rw [streamSync_get_side_theta, greekBucket_get_side_theta]
  cases cleanGreek thR <;> rfl

theorem tickOC_stream_frame_side_theta (st : TickState) (reqId : Nat) (f : Nat)
    (s : String) (ivR dR gR vgR thR uR : PVal) (k : String)
    (hsub : dget st.streamKeyMap reqId = some k) (hside : sideOf f = some s)
    (hinv : cleanGreek thR = none)
    (hagree : ∀ w, storeGet ((dget st.tickers reqId).getD []) (s ++ "_theta") = some w →
      storeGet ((dget st.streamData k).getD []) (s ++ "_theta") = some w) :
    storeGet ((dget (tickOptionComputation st reqId (some f) ivR dR gR vgR thR uR).streamData
        k).getD []) (s ++ "_theta") =
      storeGet ((dget st.streamData k).getD []) (s ++ "_theta") := by
  rw [tickOC_stream_get_side_theta st reqId f s ivR dR gR vgR thR uR k hsub hside, hinv]
  cases hb : storeGet ((dget st.tickers reqId).getD []) (s ++ "_theta") with
  | none => rfl
  | some w => exact (hagree w hb).symm

/-- C5: `tickOptionComputation` treats `-1` and non-finite greeks as
unavailable.  Part 1: an update whose six raw values all clean to
unavailable leaves the whole state unchanged (given that the request
has a bucket and the stream snapshot agrees with it wherever the
bucket is defined — the invariant the mirrored writes maintain).
Part 2: per field, the cached unqualified value in the per-request
tickers entry after any update — valid and invalid raw values mixed —
is the old value when that field's raw value is invalid, and exactly
the new value when it is valid, so a field is overwritten only by a
valid value.  Part 3: every live (10–13) and delayed (80–83) tick-type
code carries a side.  Part 4: the same per-field characterization for
the side-qualified keys of the tickers entry.  Part 5: per field, the
per-key stream snapshot after any mixed update — a field with an
invalid raw value is re-synced from the bucket's old value when
present there, so under the per-key bucket/stream agreement the
mirrored writes maintain, that field's stream value is unchanged,
while a valid value overwrites it.  Part 6: the same for the
side-qualified stream keys.  Part 7: with no registered subscription
the stream snapshot store is untouched. -/
theorem C5_greek_sentinel_frame :
    (∀ (st : TickState) (reqId : Nat) (field : Option Nat) (ivR dR gR vgR thR uR : PVal)
       (bucket0 : Store),
      dget st.tickers reqId = some bucket0 →
      cleanGreek ivR = none → cleanGreek dR = none → cleanGreek gR = none →
      cleanGreek vgR = none → cleanGreek thR = none → cleanGreek uR = none →
      (∀ k, dget st.streamKeyMap reqId = some k →
        ∃ out0, dget st.streamData k = some out0 ∧
          ∀ key v, storeGet bucket0 key = some v → storeGet out0 key = some v) →
      tickOptionComputation st reqId field ivR dR gR vgR thR uR = st) ∧
    (∀ (st : TickState) (reqId : Nat) (field : Option Nat) (ivR dR gR vgR thR uR : PVal),
      storeGet ((dget (tickOptionComputation st reqId field ivR dR gR vgR thR uR).tickers
          reqId).getD []) "iv" =
        (match cleanGreek ivR with
         | none => storeGet ((dget st.tickers reqId).getD []) "iv"
         | some v => some (some v)) ∧
      storeGet ((dget (tickOptionComputation st reqId field ivR dR gR vgR thR uR).tickers
          reqId).getD []) "delta" =
        (match cleanGreek dR with
         | none => storeGet ((dget st.tickers reqId).getD []) "delta"
         | some v => some (some v)) ∧
      storeGet ((dget (tickOptionComputation st reqId field ivR dR gR vgR thR uR).tickers
          reqId).getD []) "gamma" =
        (match cleanGreek gR with
         | none => storeGet ((dget st.tickers reqId).getD []) "gamma"
         | some v => some (some v)) ∧
      storeGet ((dget (tickOptionComputation st reqId field ivR dR gR vgR thR uR).tickers
          reqId).getD []) "vega" =
        (match cleanGreek vgR with
         | none => storeGet ((dget st.tickers reqId).getD []) "vega"
         | some v => some (some v)) ∧
      storeGet ((dget (tickOptionComputation st reqId field ivR dR gR vgR thR uR).tickers
          reqId).getD []) "theta" =
        (match cleanGreek thR with
         | none => storeGet ((dget st.tickers reqId).getD []) "theta"
         | some v => some (some v)) ∧
      storeGet ((dget (tickOptionComputation st reqId field ivR dR gR vgR thR uR).tickers
          reqId).getD []) "undPx" =
        (match cleanGreek uR with
         | none => storeGet ((dget st.tickers reqId).getD []) "undPx"
         | some v => some (some v))) ∧
    (∀ f ∈ [10, 11, 12, 13, 80, 81, 82, 83], (sideOf f).isSome = true) ∧
    (∀ (st : TickState) (reqId : Nat) (f : Nat) (s : String) (ivR dR gR vgR thR uR : PVal),
      sideOf f = some s →
      storeGet ((dget (tickOptionComputation st reqId (some f) ivR dR gR vgR thR uR).tickers
          reqId).getD []) (s ++ "_iv") =
        (match cleanGreek ivR with
         | none => storeGet ((dget st.tickers reqId).getD []) (s ++ "_iv")
         | some v => some (some v)) ∧
      storeGet ((dget (tickOptionComputation st reqId (some f) ivR dR gR vgR thR uR).tickers
          reqId).getD []) (s ++ "_delta") =
        (match cleanGreek dR with
         | none => storeGet ((dget st.tickers reqId).getD []) (s ++ "_delta")
         | some v => some (some v)) ∧
      storeGet ((dget (tickOptionComputation st reqId (some f) ivR dR gR vgR thR uR).tickers
          reqId).getD []) (s ++ "_gamma") =
        (match cleanGreek gR with
         | none => storeGet ((dget st.tickers reqId).getD []) (s ++ "_gamma")
         | some v => some (some v)) ∧
      storeGet ((dget (tickOptionComputation st reqId (some f) ivR dR gR vgR thR uR).tickers
          reqId).getD []) (s ++ "_vega") =
        (match cleanGreek vgR with
         | none => storeGet ((dget st.tickers reqId).getD []) (s ++ "_vega")
         | some v => some (some v)) ∧
      storeGet ((dget (tickOptionComputation st reqId (some f) ivR dR gR vgR thR uR).tickers
          reqId).getD []) (s ++ "_theta") =
        (match cleanGreek thR with
         | none => storeGet ((dget st.tickers reqId).getD []) (s ++ "_theta")
         | some v => some (some v))) ∧
    (∀ (st : TickState) (reqId : Nat) (field : Option Nat) (ivR dR gR vgR thR uR : PVal)
       (k : String),
      dget st.streamKeyMap reqId = some k →
      storeGet ((dget (tickOptionComputation st reqId field ivR dR gR vgR thR uR).streamData
          k).getD []) "iv" =
        (match cleanGreek ivR with
         | some v => some (some v)
         | none =>
           match storeGet ((dget st.tickers reqId).getD []) "iv" with
           | some w => some w
           | none => storeGet ((dget st.streamData k).getD []) "iv") ∧
      (cleanGreek ivR = none →
        (∀ w, storeGet ((dget st.tickers reqId).getD []) "iv" = some w →
          storeGet ((dget st.streamData k).getD []) "iv" = some w) →
        storeGet ((dget (tickOptionComputation st reqId field ivR dR gR vgR thR uR).streamData
            k).getD []) "iv" = storeGet ((dget st.streamData k).getD []) "iv") ∧
      storeGet ((dget (tickOptionComputation st reqId field ivR dR gR vgR thR uR).streamData
          k).getD []) "delta" =
        (match cleanGreek dR with
         | some v => some (some v)
         | none =>
           match storeGet ((dget st.tickers reqId).getD []) "delta" with
           | some w => some w
           | none => storeGet ((dget st.streamData k).getD []) "delta") ∧
      (cleanGreek dR = none →
        (∀ w, storeGet ((dget st.tickers reqId).getD []) "delta" = some w →
          storeGet ((dget st.streamData k).getD []) "delta" = some w) →
        storeGet ((dget (tickOptionComputation st reqId field ivR dR gR vgR thR uR).streamData
            k).getD []) "delta" = storeGet ((dget st.streamData k).getD []) "delta") ∧
      storeGet ((dget (tickOptionComputation st reqId field ivR dR gR vgR thR uR).streamData
          k).getD []) "gamma" =
        (match cleanGreek gR with
         | some v => some (some v)
         | none =>
           match storeGet ((dget st.tickers reqId).getD []) "gamma" with
           | some w => some w
           | none => storeGet ((dget st.streamData k).getD []) "gamma") ∧
      (cleanGreek gR = none →
        (∀ w, storeGet ((dget st.tickers reqId).getD []) "gamma" = some w →
          storeGet ((dget st.streamData k).getD []) "gamma" = some w) →
        storeGet ((dget (tickOptionComputation st reqId field ivR dR gR vgR thR uR).streamData
            k).getD []) "gamma" = storeGet ((dget st.streamData k).getD []) "gamma") ∧
      storeGet ((dget (tickOptionComputation st reqId field ivR dR gR vgR thR uR).streamData
          k).getD []) "vega" =
        (match cleanGreek vgR with
         | some v => some (some v)
         | none =>
           match storeGet ((dget st.tickers reqId).getD []) "vega" with
           | some w => some w
           | none => storeGet ((dget st.streamData k).getD []) "vega") ∧
      (cleanGreek vgR = none →
        (∀ w, storeGet ((dget st.tickers reqId).getD []) "vega" = some w →
          storeGet ((dget st.streamData k).getD []) "vega" = some w) →
        storeGet ((dget (tickOptionComputation st reqId field ivR dR gR vgR thR uR).streamData
            k).getD []) "vega" = storeGet ((dget st.streamData k).getD []) "vega") ∧
      storeGet ((dget (tickOptionComputation st reqId field ivR dR gR vgR thR uR).streamData
          k).getD []) "theta" =
        (match cleanGreek thR with
         | some v => some (some v)
         | none =>
           match storeGet ((dget st.tickers reqId).getD []) "theta" with
           | some w => some w
           | none => storeGet ((dget st.streamData k).getD []) "theta") ∧
      (cleanGreek thR = none →
        (∀ w, storeGet ((dget st.tickers reqId).getD []) "theta" = some w →
          storeGet ((dget st.streamData k).getD []) "theta" = some w) →
        storeGet ((dget (tickOptionComputation st reqId field ivR dR gR vgR thR uR).streamData
            k).getD []) "theta" = storeGet ((dget st.streamData k).getD []) "theta") ∧
      storeGet ((dget (tickOptionComputation st reqId field ivR dR gR vgR thR uR).streamData
          k).getD []) "undPx" =
        (match cleanGreek uR with
         | some v => some (some v)
         | none =>
           match storeGet ((dget st.tickers reqId).getD []) "undPx" with
           | some w => some w
           | none => storeGet ((dget st.streamData k).getD []) "undPx") ∧
      (cleanGreek uR = none →
        (∀ w, storeGet ((dget st.tickers reqId).getD []) "undPx" = some w →
          storeGet ((dget st.streamData k).getD []) "undPx" = some w) →
        storeGet ((dget (tickOptionComputation st reqId field ivR dR gR vgR thR uR).streamData
            k).getD []) "undPx" = storeGet ((dget st.streamData k).getD []) "undPx")) ∧
    (∀ (st : TickState) (reqId : Nat) (f : Nat) (s : String) (ivR dR gR vgR thR uR : PVal)
       (k : String),
      dget st.streamKeyMap reqId = some k →
      sideOf f = some s →
      storeGet ((dget (tickOptionComputation st reqId (some f) ivR dR gR vgR thR uR).streamData
          k).getD []) (s ++ "_iv") =
        (match cleanGreek ivR with
         | some v => some (some v)
         | none =>
           match storeGet ((dget st.tickers reqId).getD []) (s ++ "_iv") with
           | some w => some w
           | none => storeGet ((dget st.streamData k).getD []) (s ++ "_iv")) ∧
      (cleanGreek ivR = none →
        (∀ w, storeGet ((dget st.tickers reqId).getD []) (s ++ "_iv") = some w →
          storeGet ((dget st.streamData k).getD []) (s ++ "_iv") = some w) →
        storeGet ((dget (tickOptionComputation st reqId (some f) ivR dR gR vgR thR uR).streamData
            k).getD []) (s ++ "_iv") =
          storeGet ((dget st.streamData k).getD []) (s ++ "_iv")) ∧
      storeGet ((dget (tickOptionComputation st reqId (some f) ivR dR gR vgR thR uR).streamData
          k).getD []) (s ++ "_delta") =
        (match cleanGreek dR with
         | some v => some (some v)
         | none =>
           match storeGet ((dget st.tickers reqId).getD []) (s ++ "_delta") with
           | some w => some w
           | none => storeGet ((dget st.streamData k).getD []) (s ++ "_delta")) ∧
      (cleanGreek dR = none →
        (∀ w, storeGet ((dget st.tickers reqId).getD []) (s ++ "_delta") = some w →
          storeGet ((dget st.streamData k).getD []) (s ++ "_delta") = some w) →
        storeGet ((dget (tickOptionComputation st reqId (some f) ivR dR gR vgR thR uR).streamData
            k).getD []) (s ++ "_delta") =
          storeGet ((dget st.streamData k).getD []) (s ++ "_delta")) ∧
      storeGet ((dget (tickOptionComputation st reqId (some f) ivR dR gR vgR thR uR).streamData
          k).getD []) (s ++ "_gamma") =
        (match cleanGreek gR with
         | some v => some (some v)
         | none =>
           match storeGet ((dget st.tickers reqId).getD []) (s ++ "_gamma") with
           | some w => some w
           | none => storeGet ((dget st.streamData k).getD []) (s ++ "_gamma")) ∧
      (cleanGreek gR = none →
        (∀ w, storeGet ((dget st.tickers reqId).getD []) (s ++ "_gamma") = some w →
          storeGet ((dget st.streamData k).getD []) (s ++ "_gamma") = some w) →
        storeGet ((dget (tickOptionComputation st reqId (some f) ivR dR gR vgR thR uR).streamData
            k).getD []) (s ++ "_gamma") =
          storeGet ((dget st.streamData k).getD []) (s ++ "_gamma")) ∧
      storeGet ((dget (tickOptionComputation st reqId (some f) ivR dR gR vgR thR uR).streamData
          k).getD []) (s ++ "_vega") =
        (match cleanGreek vgR with
         | some v => some (some v)
         | none =>
           match storeGet ((dget st.tickers reqId).getD []) (s ++ "_vega") with
           | some w => some w
           | none => storeGet ((dget st.streamData k).getD []) (s ++ "_vega")) ∧
      (cleanGreek vgR = none →
        (∀ w, storeGet ((dget st.tickers reqId).getD []) (s ++ "_vega") = some w →
          storeGet ((dget st.streamData k).getD []) (s ++ "_vega") = some w) →
        storeGet ((dget (tickOptionComputation st reqId (some f) ivR dR gR vgR thR uR).streamData
            k).getD []) (s ++ "_vega") =
          storeGet ((dget st.streamData k).getD []) (s ++ "_vega")) ∧
      storeGet ((dget (tickOptionComputation st reqId (some f) ivR dR gR vgR thR uR).streamData
          k).getD []) (s ++ "_theta") =
        (match cleanGreek thR with
         | some v => some (some v)
         | none =>
           match storeGet ((dget st.tickers reqId).getD []) (s ++ "_theta") with
           | some w => some w
           | none => storeGet ((dget st.streamData k).getD []) (s ++ "_theta")) ∧
      (cleanGreek thR = none →
        (∀ w, storeGet ((dget st.tickers reqId).getD []) (s ++ "_theta") = some w →
          storeGet ((dget st.streamData k).getD []) (s ++ "_theta") = some w) →
        storeGet ((dget (tickOptionComputation st reqId (some f) ivR dR gR vgR thR uR).streamData
            k).getD []) (s ++ "_theta") =
          storeGet ((dget st.streamData k).getD []) (s ++ "_theta"))) ∧
    (∀ (st : TickState) (reqId : Nat) (field : Option Nat) (ivR dR gR vgR thR uR : PVal),
      dget st.streamKeyMap reqId = none →
      (tickOptionComputation st reqId field ivR dR gR vgR thR uR).streamData =
        st.streamData) := by
  refine ⟨tickOC_invalid_frame, ?_, by decide, ?_, ?_, ?_, tickOC_streamData_unsub⟩
  · intro st reqId field ivR dR gR vgR thR uR
    rw [tickOC_tickers, dget_dset_self]
    simp only [Option.getD_some]
    exact ⟨greekBucket_get_iv _ _ _ _ _ _ _ _, greekBucket_get_delta _ _ _ _ _ _ _ _,
      greekBucket_get_gamma _ _ _ _ _ _ _ _, greekBucket_get_vega _ _ _ _ _ _ _ _,
      greekBucket_get_theta _ _ _ _ _ _ _ _, greekBucket_get_undPx _ _ _ _ _ _ _ _⟩
  · intro st reqId f s ivR dR gR vgR thR uR hside
    rw [tickOC_tickers, dget_dset_self]
    simp only [Option.getD_some, hside]
    exact ⟨greekBucket_get_side_iv _ _ _ _ _ _ _ _, greekBucket_get_side_delta _ _ _ _ _ _ _ _,
      greekBucket_get_side_gamma _ _ _ _ _ _ _ _, greekBucket_get_side_vega _ _ _ _ _ _ _ _,
      greekBucket_get_side_theta _ _ _ _ _ _ _ _⟩
  · intro st reqId field ivR dR gR vgR thR uR k hsub
    exact ⟨tickOC_stream_get_iv st reqId field ivR dR gR vgR thR uR k hsub,
      fun hi ha => tickOC_stream_frame_iv st reqId field ivR dR gR vgR thR uR k hsub hi ha,
      tickOC_stream_get_delta st reqId field ivR dR gR vgR thR uR k hsub,
      fun hi ha => tickOC_stream_frame_delta st reqId field ivR dR gR vgR thR uR k hsub hi ha,
      tickOC_stream_get_gamma st reqId field ivR dR gR vgR thR uR k hsub,
      fun hi ha => tickOC_stream_frame_gamma st reqId field ivR dR gR vgR thR uR k hsub hi ha,
      tickOC_stream_get_vega st reqId field ivR dR gR vgR thR uR k hsub,
      fun hi ha => tickOC_stream_frame_vega st reqId field ivR dR gR vgR thR uR k hsub hi ha,
      tickOC_stream_get_theta st reqId field ivR dR gR vgR thR uR k hsub,
      fun hi ha => tickOC_stream_frame_theta st reqId field ivR dR gR vgR thR uR k hsub hi ha,
      tickOC_stream_get_undPx st reqId field ivR dR gR vgR thR uR k hsub,
      fun hi ha => tickOC_stream_frame_undPx st reqId field ivR dR gR vgR thR uR k hsub hi ha⟩
  · intro st reqId f s ivR dR gR vgR thR uR k hsub hside
    exact ⟨tickOC_stream_get_side_iv st reqId f s ivR dR gR vgR thR uR k hsub hside,
      fun hi ha => tickOC_stream_frame_side_iv st reqId f s ivR dR gR vgR thR uR k hsub hside hi ha,
      tickOC_stream_get_side_delta st reqId f s ivR dR gR vgR thR uR k hsub hside,
      fun hi ha => tickOC_stream_frame_side_delta st reqId f s ivR dR gR vgR thR uR k hsub hside hi ha,
      tickOC_stream_get_side_gamma st reqId f s ivR dR gR vgR thR uR k hsub hside,
      fun hi ha => tickOC_stream_frame_side_gamma st reqId f s ivR dR gR vgR thR uR k hsub hside hi ha,
      tickOC_stream_get_side_vega st reqId f s ivR dR gR vgR thR uR k hsub hside,
      fun hi ha => tickOC_stream_frame_side_vega st reqId f s ivR dR gR vgR thR uR k hsub hside hi ha,
      tickOC_stream_get_side_theta st reqId f s ivR dR gR vgR thR uR k hsub hside,
      fun hi ha => tickOC_stream_frame_side_theta st reqId f s ivR dR gR vgR thR uR k hsub hside hi ha⟩

/-- C5 witness: a sentinel `-1` delta update (with all other raw
values missing) on a subscribed request leaves the concrete state
unchanged; a valid delta on a model-side code (13) is recorded under
both `delta` and `model_delta`; and in a mixed update (valid iv
alongside a sentinel delta) on a subscribed request the stream
snapshot's `delta` stays at its old value while its `iv` takes the new
value. -/
theorem C5_greek_sentinel_frame_witness :
    cleanGreek (some (PFloat.num (-1))) = none ∧
    tickOptionComputation ⟨[(3, [("delta", some (PFloat.num 7))])], [(3, "K")],
        [("K", [("delta", some (PFloat.num 7))])]⟩ 3 (some 13)
        none (some (PFloat.num (-1))) none none none none =
      ⟨[(3, [("delta", some (PFloat.num 7))])], [(3, "K")],
        [("K", [("delta", some (PFloat.num 7))])]⟩ ∧
    storeGet ((dget (tickOptionComputation ⟨[(3, [])], [], []⟩ 3 (some 13)
        none (some (PFloat.num 7)) none none none none).tickers 3).getD [])
        ("model" ++ "_delta") = some (some (PFloat.num 7)) ∧
    storeGet ((dget (tickOptionComputation ⟨[(3, [("delta", some (PFloat.num 7))])],
        [(3, "K")], [("K", [("delta", some (PFloat.num 7))])]⟩ 3 (some 13)
        (some (PFloat.num 2)) (some (PFloat.num (-1))) none none none none).streamData
        "K").getD []) "delta" = some (some (PFloat.num 7)) ∧
    storeGet ((dget (tickOptionComputation ⟨[(3, [("delta", some (PFloat.num 7))])],
        [(3, "K")], [("K", [("delta", some (PFloat.num 7))])]⟩ 3 (some 13)
        (some (PFloat.num 2)) (some (PFloat.num (-1))) none none none none).streamData
        "K").getD []) "iv" = some (some (PFloat.num 2)) := by
  refine ⟨by decide, ?_, ?_, ?_, ?_⟩
  · exact C5_greek_sentinel_frame.1 _ 3 (some 13) none (some (PFloat.num (-1)))
      none none none none [("delta", some (PFloat.num 7))] (by decide)
      (by decide) (by decide) rfl rfl rfl rfl
      (fun k hk => by
        refine ⟨[("delta", some (PFloat.num 7))], ?_, fun key v hv => hv⟩
        have : k = "K" := by
          simpa [dget] using hk.symm
        rw [this]
        rfl)
  · rw [(C5_greek_sentinel_frame.2.2.2.1 ⟨[(3, [])], [], []⟩ 3 13 "model"
      none (some (PFloat.num 7)) none none none none (by decide)).2.1]
    decide
  · rw [(C5_greek_sentinel_frame.2.2.2.2.1 ⟨[(3, [("delta", some (PFloat.num 7))])],
        [(3, "K")], [("K", [("delta", some (PFloat.num 7))])]⟩ 3 (some 13)
        (some (PFloat.num 2)) (some (PFloat.num (-1))) none none none none "K"
        (by decide)).2.2.2.1 (by decide)
        (fun w hw => by rw [← hw]; decide)]
    decide
  · rw [(C5_greek_sentinel_frame.2.2.2.2.1 ⟨[(3, [("delta", some (PFloat.num 7))])],
        [(3, "K")], [("K", [("delta", some (PFloat.num 7))])]⟩ 3 (some 13)
        (some (PFloat.num 2)) (some (PFloat.num (-1))) none none none none "K"
        (by decide)).1]
    decide

end Trade
